import Mathlib

/-!
Verification of the crabcache-client-js core against its specification.

The development shallowly embeds the client's stream-framing / response-
correlation layer (`src/connection.ts`), the connection pool (`src/pool.ts`),
the pipeline executor (`pipeline.ts`) together with the wire-protocol
encoder/decoder (`src/protocol.ts`), and the cluster-wide STATS aggregation
(`client.js`, `getClusterStats`).

Modelling conventions:
* JS `Buffer`s are `List Nat` (one entry per byte).
* The single-threaded event loop is modelled by explicit state-passing:
  each socket/timer callback becomes a function on the connection state.
* A JS promise's settle-once behaviour is modelled by an `Option Outcome`
  field on each outstanding-request record: `Pending.settle` writes the
  outcome only when the record is still unsettled, exactly as a second
  `resolve`/`reject` on an already-settled promise is a no-op.
* Wall-clock time (`Date.now`, `setTimeout` delays) is an abstract `Nat`
  counter; timer expiry is an explicit event (`fireTimeout`).
-/

namespace CrabCache

/-! ## Text framing (`connection.ts`, `extractTextResponse`)

`Buffer.indexOf('\r\n')`: index of the first occurrence of the byte pair
13, 10. -/

/-- Index of the first CR LF byte pair in a buffer, as
`this.responseBuffer.indexOf('\r\n')` computes it. -/
def crlfIndex : List Nat → Option Nat
  | a :: b :: rest =>
    if a = 13 && b = 10 then some 0 else (crlfIndex (b :: rest)).map (· + 1)
  | _ => none

@[simp] theorem crlfIndex_nil : crlfIndex [] = none := rfl

@[simp] theorem crlfIndex_single (a : Nat) : crlfIndex [a] = none := rfl

theorem crlfIndex_cons2 (a b : Nat) (l : List Nat) :
    crlfIndex (a :: b :: l) =
      if a = 13 && b = 10 then some 0 else (crlfIndex (b :: l)).map (· + 1) := rfl

/-- `extractTextResponse`: split off all bytes before the first CR LF;
the terminator is consumed but not returned.  `none` = incomplete. -/
def extractTextResponse (buf : List Nat) : Option (List Nat × List Nat) :=
  match crlfIndex buf with
  | none => none
  | some i => some (buf.take i, buf.drop (i + 2))

theorem crlfIndex_le : ∀ (buf : List Nat) (i : Nat),
    crlfIndex buf = some i → i + 2 ≤ buf.length := by
  intro buf
  induction buf with
  | nil => intro i h; simp at h
  | cons a rest ih =>
    intro i h
    cases rest with
    | nil => simp at h
    | cons b l =>
      rw [crlfIndex_cons2] at h
      by_cases hab : (a = 13 && b = 10) = true
      · simp [hab] at h
        subst h
        simp [List.length]
      · simp [hab] at h
        obtain ⟨j, hj, hji⟩ := h
        have := ih j hj
        simp only [List.length_cons] at this ⊢
        omega

theorem crlfIndex_append (buf : List Nat) (d : List Nat) (i : Nat)
    (h : crlfIndex buf = some i) : crlfIndex (buf ++ d) = some i := by
  induction buf generalizing i with
  | nil => simp at h
  | cons a rest ih =>
    cases rest with
    | nil => simp at h
    | cons b l =>
      rw [crlfIndex_cons2] at h
      rw [List.cons_append, List.cons_append, crlfIndex_cons2]
      by_cases hab : (a = 13 && b = 10) = true
      · simp [hab] at h ⊢; omega
      · simp [hab] at h ⊢
        obtain ⟨j, hj, hji⟩ := h
        exact ⟨j, ih j hj, hji⟩

@[simp] theorem extractTextResponse_nil : extractTextResponse [] = none := rfl

theorem extractTextResponse_append {buf d f rest : List Nat}
    (h : extractTextResponse buf = some (f, rest)) :
    extractTextResponse (buf ++ d) = some (f, rest ++ d) := by
  unfold extractTextResponse at h ⊢
  cases hc : crlfIndex buf with
  | none => rw [hc] at h; simp at h
  | some i =>
    rw [hc] at h
    simp only [Option.some.injEq, Prod.mk.injEq] at h
    obtain ⟨hf, hr⟩ := h
    have hle := crlfIndex_le buf i hc
    rw [crlfIndex_append buf d i hc]
    simp only [Option.some.injEq, Prod.mk.injEq]
    constructor
    · rw [← hf, List.take_append_of_le_length (by omega)]
    · rw [← hr, List.drop_append_of_le_length (by omega)]

theorem extractTextResponse_shrink {buf f rest : List Nat}
    (h : extractTextResponse buf = some (f, rest)) : rest.length < buf.length := by
  unfold extractTextResponse at h
  cases hc : crlfIndex buf with
  | none => rw [hc] at h; simp at h
  | some i =>
    rw [hc] at h
    simp only [Option.some.injEq, Prod.mk.injEq] at h
    have hle := crlfIndex_le buf i hc
    have : rest = buf.drop (i + 2) := h.2.symm
    subst this
    rw [List.length_drop]
    omega

theorem extractTextResponse_ne_nil {buf f rest : List Nat}
    (h : extractTextResponse buf = some (f, rest)) : buf ≠ [] := by
  intro hb; subst hb; simp at h

/-- Repeated frame extraction with explicit fuel (any fuel at least the
buffer length is enough, since each extracted frame consumes at least its
CR LF terminator). -/
def textFramesAux : Nat → List Nat → List (List Nat)
  | 0, _ => []
  | fuel + 1, buf =>
    match extractTextResponse buf with
    | none => []
    | some (f, rest) => f :: textFramesAux fuel rest

/-- The stream of complete frames extractable from a buffer, in order. -/
def textFrames (buf : List Nat) : List (List Nat) :=
  textFramesAux buf.length buf

theorem textFramesAux_congr : ∀ (f1 : Nat), ∀ {f2 : Nat} {buf : List Nat},
    buf.length ≤ f1 → buf.length ≤ f2 → textFramesAux f1 buf = textFramesAux f2 buf := by
  intro f1
  induction f1 with
  | zero =>
    intro f2 buf h1 _
    have : buf = [] := by cases buf <;> simp_all
    subst this
    cases f2 <;> simp [textFramesAux]
  | succ k ih =>
    intro f2 buf h1 h2
    cases f2 with
    | zero =>
      have : buf = [] := by cases buf <;> simp_all
      subst this
      simp [textFramesAux]
    | succ m =>
      simp only [textFramesAux]
      cases hex : extractTextResponse buf with
      | none => rfl
      | some fr =>
        obtain ⟨f, rest⟩ := fr
        have hlt := extractTextResponse_shrink hex
        show f :: textFramesAux k rest = f :: textFramesAux m rest
        rw [@ih m rest (by omega) (by omega)]

theorem textFrames_none {buf : List Nat} (h : extractTextResponse buf = none) :
    textFrames buf = [] := by
  unfold textFrames
  cases hl : buf.length with
  | zero => simp [textFramesAux]
  | succ k => simp [textFramesAux, h]

theorem textFrames_some {buf f rest : List Nat}
    (h : extractTextResponse buf = some (f, rest)) :
    textFrames buf = f :: textFrames rest := by
  unfold textFrames
  have hne : buf ≠ [] := extractTextResponse_ne_nil h
  have hlt := extractTextResponse_shrink h
  cases hl : buf.length with
  | zero => exact absurd (List.length_eq_zero.mp hl) hne
  | succ k =>
    simp only [textFramesAux, h]
    rw [@textFramesAux_congr k rest.length rest (by omega) (by omega)]

@[simp] theorem textFrames_nil : textFrames [] = [] :=
  textFrames_none rfl

/-! ## Binary framing (`connection.ts`, `extractBinaryResponse`)

Response tags: OK=0x10, PONG=0x11, NULL=0x12 are one-byte frames;
ERROR=0x13, VALUE=0x14, STATS=0x15 carry a 4-byte little-endian length
prefix.  The `default:` arm of the `switch` throws, but the surrounding
`try`/`catch` converts any throw into `return null` ("wait for more data"). -/

/-- `buf.readUInt32LE(off)`: 4-byte little-endian read (buffer cells are
bytes, i.e. `< 256`). -/
def readUInt32LE (buf : List Nat) (off : Nat) : Nat :=
  buf.getD off 0 + buf.getD (off + 1) 0 * 256 + buf.getD (off + 2) 0 * 65536 +
    buf.getD (off + 3) 0 * 16777216

/-- The body of the `try` block of `extractBinaryResponse`: `.error` is the
thrown `Unknown response type`, `.ok none` is "incomplete", `.ok (some _)` is
an extracted frame together with the remaining buffer. -/
def extractBinaryInner (buf : List Nat) : Except String (Option (List Nat × List Nat)) :=
  let t := buf.headD 0
  if t = 0x10 ∨ t = 0x11 ∨ t = 0x12 then
    .ok (some (buf.take 1, buf.drop 1))
  else if t = 0x13 ∨ t = 0x14 ∨ t = 0x15 then
    if buf.length < 5 then .ok none
    else
      let len := readUInt32LE buf 1
      let totalLength := 1 + 4 + len
      if buf.length < totalLength then .ok none
      else .ok (some (buf.take totalLength, buf.drop totalLength))
  else .error "Unknown response type"

/-- `extractBinaryResponse`: empty buffer yields `null`; a throw inside the
`try` block is caught and also yields `null` (the comment in the source reads
"Se não conseguir decodificar, aguarda mais dados"). -/
def extractBinaryResponse (buf : List Nat) : Option (List Nat × List Nat) :=
  if buf.length = 0 then none
  else
    match extractBinaryInner buf with
    | .error _ => none
    | .ok r => r

/-! ## Connection state (`connection.ts`) -/

/-- Errors a pending record can be failed with. -/
inductive ConnError where
  | commandTimeout
  | writeFailed
  | connClosed
  | destroyed
deriving DecidableEq, Repr

/-- The final result a caller observes for one request. -/
inductive Outcome where
  | replied (frame : List Nat)
  | failed (e : ConnError)
deriving DecidableEq, Repr

/-- One entry of `pendingResponses`: the caller's promise, identified by
`id`, with its settle-once outcome. -/
structure Pending where
  id : Nat
  outcome : Option Outcome
deriving DecidableEq, Repr

instance : Inhabited Pending := ⟨⟨0, none⟩⟩

/-- Settling an already-settled promise is a no-op. -/
def Pending.settle (r : Pending) (o : Outcome) : Pending :=
  if r.outcome.isSome then r else { r with outcome := some o }

@[simp] theorem Pending.settle_unsettled (i : Nat) (o : Outcome) :
    Pending.settle ⟨i, none⟩ o = ⟨i, some o⟩ := rfl

@[simp] theorem Pending.settle_settled (i : Nat) (o o' : Outcome) :
    Pending.settle ⟨i, some o⟩ o' = ⟨i, some o⟩ := rfl

/-- State of one `CrabCacheConnection`.  `queue` is `pendingResponses`
(front = oldest); `completed` records, in order, the entries that have been
shifted or popped off the queue, carrying the outcome each caller observes. -/
structure ConnState where
  useBinary : Bool
  connected : Bool
  buffer : List Nat
  queue : List Pending
  completed : List Pending
deriving DecidableEq, Repr

/-- `extractResponse`: dispatch on `config.useBinaryProtocol`. -/
def extractResponse (useBinary : Bool) (buf : List Nat) : Option (List Nat × List Nat) :=
  if useBinary then extractBinaryResponse buf else extractTextResponse buf

/-- The `while` loop of `handleData`: while the buffer and the pending queue
are both non-empty, extract one complete frame and resolve the oldest
pending record with it.  Returns (buffer, queue, completed). -/
def processLoop (ub : Bool) : List Nat → List Pending → List Pending →
    List Nat × List Pending × List Pending
  | buf, [], done => (buf, [], done)
  | buf, p :: ps, done =>
    if buf.isEmpty then (buf, p :: ps, done)
    else
      match extractResponse ub buf with
      | none => (buf, p :: ps, done)
      | some (frame, rest) =>
        processLoop ub rest ps (done ++ [p.settle (.replied frame)])

/-- The `data` socket event: append the chunk to `responseBuffer`, then run
the extraction loop. -/
def handleData (st : ConnState) (data : List Nat) : ConnState :=
  let r := processLoop st.useBinary (st.buffer ++ data) st.queue st.completed
  { st with buffer := r.1, queue := r.2.1, completed := r.2.2 }

/-- Expiry of the per-command timer created in `sendCommand`: it only calls
`reject` on that command's promise; the record is left in
`pendingResponses` and the socket is untouched. -/
def fireTimeout (st : ConnState) (i : Nat) : ConnState :=
  { st with queue := st.queue.map fun r =>
      if r.id = i then r.settle (.failed .commandTimeout) else r }

/-- `sendCommand` (on an established connection): push one pending record,
then write.  If the write callback reports an error, the **most recently
pushed** record is popped (`pendingResponses.pop()`) and rejected. -/
def sendCommand (st : ConnState) (newId : Nat) (writeOk : Bool) : ConnState :=
  let q1 := st.queue ++ [{ id := newId, outcome := none }]
  if writeOk then { st with queue := q1 }
  else
    match q1.getLast? with
    | none => { st with queue := q1 }
    | some r =>
      { st with queue := q1.dropLast,
                completed := st.completed ++ [r.settle (.failed .writeFailed)] }

/-- `sendPipelineCommands` (on an established connection): push one pending
record per blob in call order, then issue one concatenated write.  If the
write callback reports an error, the `while (pendingResponses.length > 0)`
loop pops **every** pending record (newest first) and rejects it.  The
second component is the byte string handed to `socket.write`. -/
def sendPipelineCommands (st : ConnState) (blobs : List (List Nat))
    (newIds : List Nat) (writeOk : Bool) : ConnState × List Nat :=
  let q1 := st.queue ++ newIds.map fun i => { id := i, outcome := none }
  let written := blobs.flatten
  if writeOk then ({ st with queue := q1 }, written)
  else
    ({ st with queue := [],
               completed := st.completed ++
                 q1.reverse.map fun r => r.settle (.failed .writeFailed) },
     written)

/-- Enqueue a back-to-back sequence of commands (all writes succeeding),
as N `sendCommand` calls issued before any reply arrives. -/
def enqueueAll (st : ConnState) (ids : List Nat) : ConnState :=
  ids.foldl (fun s i => sendCommand s i true) st

/-- A fresh, connected connection with empty buffer and queue. -/
def initialConn (useBinary : Bool) : ConnState :=
  { useBinary := useBinary, connected := true, buffer := [], queue := [], completed := [] }

/-! ## Properties of the extraction loop -/

@[simp] theorem extractResponse_nil (ub : Bool) : extractResponse ub [] = none := by
  cases ub <;> rfl

theorem processLoop_nil_queue (ub : Bool) (buf done) :
    processLoop ub buf [] done = (buf, [], done) := by
  simp [processLoop]

theorem processLoop_stuck (ub : Bool) (buf : List Nat) (p : Pending) (ps done : List Pending)
    (h : extractResponse ub buf = none) :
    processLoop ub buf (p :: ps) done = (buf, p :: ps, done) := by
  cases buf with
  | nil => simp [processLoop]
  | cons a l => simp [processLoop, h]

theorem processLoop_step (ub : Bool) (buf : List Nat) (p : Pending) (ps done : List Pending)
    (f rest : List Nat) (h : extractResponse ub buf = some (f, rest)) :
    processLoop ub buf (p :: ps) done =
      processLoop ub rest ps (done ++ [p.settle (.replied f)]) := by
  cases buf with
  | nil => rw [extractResponse_nil] at h; exact absurd h (by simp)
  | cons a l => simp [processLoop, h]

/-- Chunk-splitting invariance of the extraction loop under text framing:
processing `B ++ d` in one go is the same as processing `B`, then feeding
`d` to the stuck state.  This is the heart of the "arbitrary chunk
boundaries" claims. -/
theorem processLoop_text_append (Q : List Pending) :
    ∀ (B : List Nat) (C : List Pending) (d : List Nat),
    processLoop false (B ++ d) Q C =
      processLoop false ((processLoop false B Q C).1 ++ d)
        (processLoop false B Q C).2.1 (processLoop false B Q C).2.2 := by
  induction Q with
  | nil => intro B C d; simp [processLoop_nil_queue]
  | cons p ps ih =>
    intro B C d
    rcases hB : B with _ | ⟨a, l⟩
    · simp [processLoop]
    · rw [← hB]
      cases hex : extractTextResponse B with
      | none =>
        have hex' : extractResponse false B = none := hex
        rw [processLoop_stuck false B p ps C hex']
      | some fr =>
        obtain ⟨f, rest⟩ := fr
        have hex' : extractResponse false B = some (f, rest) := hex
        have hex2 : extractResponse false (B ++ d) = some (f, rest ++ d) :=
          extractTextResponse_append hex
        rw [processLoop_step false (B ++ d) p ps C f (rest ++ d) hex2,
            processLoop_step false B p ps C f rest hex']
        exact ih rest (C ++ [p.settle (.replied f)]) d

theorem handleData_append (st : ConnState) (hub : st.useBinary = false)
    (d1 d2 : List Nat) :
    handleData (handleData st d1) d2 = handleData st (d1 ++ d2) := by
  unfold handleData
  simp only [hub]
  rw [← List.append_assoc]
  rw [processLoop_text_append st.queue (st.buffer ++ d1) st.completed d2]

theorem handleData_useBinary (st : ConnState) (d : List Nat) :
    (handleData st d).useBinary = st.useBinary := rfl

theorem handleData_nil_quiescent (st : ConnState) (h : st.buffer = []) :
    handleData st [] = st := by
  obtain ⟨ub, cn, buf, q, comp⟩ := st
  simp only at h
  subst h
  unfold handleData
  cases q with
  | nil => simp [processLoop_nil_queue]
  | cons p ps => simp [processLoop]

/-- Feeding the chunks one `data` event at a time equals one `data` event
carrying their concatenation (text framing). -/
theorem foldl_handleData (chunks : List (List Nat)) :
    ∀ (st : ConnState), st.useBinary = false → handleData st [] = st →
    chunks.foldl handleData st = handleData st chunks.flatten := by
  induction chunks with
  | nil => intro st _ hq; simpa using hq.symm
  | cons c cs ih =>
    intro st hub hq
    have hub' : (handleData st c).useBinary = false := by
      rw [handleData_useBinary]; exact hub
    have hq' : handleData (handleData st c) [] = handleData st c := by
      rw [handleData_append st hub c []]; simp
    calc (c :: cs).foldl handleData st = cs.foldl handleData (handleData st c) := rfl
      _ = handleData (handleData st c) cs.flatten := ih (handleData st c) hub' hq'
      _ = handleData st (c ++ cs.flatten) := handleData_append st hub c cs.flatten
      _ = handleData st (c :: cs).flatten := by simp

/-- Buffer contents after extracting `k` complete frames. -/
def dropFrames (ub : Bool) : List Nat → Nat → List Nat
  | B, 0 => B
  | B, k + 1 =>
    match extractResponse ub B with
    | none => B
    | some (_, rest) => dropFrames ub rest k

/-- Full characterisation of the extraction loop under text framing: it
consumes `min |Q| (#frames)` frames, resolves that many oldest records in
FIFO order, and leaves the rest of the queue and buffer untouched. -/
theorem processLoop_text_spec (Q : List Pending) :
    ∀ (B : List Nat) (C : List Pending),
    processLoop false B Q C =
      (dropFrames false B (min Q.length (textFrames B).length),
       Q.drop (textFrames B).length,
       C ++ List.zipWith (fun p f => p.settle (.replied f)) Q (textFrames B)) := by
  induction Q with
  | nil => intro B C; simp [processLoop_nil_queue, dropFrames]
  | cons p ps ih =>
    intro B C
    cases hex : extractTextResponse B with
    | none =>
      have hex' : extractResponse false B = none := hex
      rw [processLoop_stuck false B p ps C hex', textFrames_none hex]
      simp [dropFrames]
    | some fr =>
      obtain ⟨f, rest⟩ := fr
      have hex' : extractResponse false B = some (f, rest) := hex
      rw [processLoop_step false B p ps C f rest hex', textFrames_some hex,
          ih rest (C ++ [p.settle (.replied f)])]
      have hmin : min (ps.length + 1) ((textFrames rest).length + 1)
          = min ps.length (textFrames rest).length + 1 := by omega
      simp only [List.length_cons, List.zipWith_cons_cons, List.drop_succ_cons,
        Prod.mk.injEq, hmin, dropFrames, hex']
      simp

theorem sendCommand_ok (st : ConnState) (i : Nat) :
    sendCommand st i true = { st with queue := st.queue ++ [{ id := i, outcome := none }] } := rfl

theorem enqueueAll_spec (ids : List Nat) : ∀ (st : ConnState),
    enqueueAll st ids =
      { st with queue := st.queue ++ ids.map fun i => { id := i, outcome := none } } := by
  induction ids with
  | nil => intro st; simp [enqueueAll]
  | cons i is ih =>
    intro st
    show enqueueAll (sendCommand st i true) is = _
    rw [ih, sendCommand_ok]
    simp

theorem crlfIndex_concat (f : List Nat) (r : List Nat) (h : crlfIndex f = none) :
    crlfIndex (f ++ 13 :: 10 :: r) = some f.length := by
  induction f with
  | nil => simp [crlfIndex_cons2]
  | cons a rest ih =>
    cases rest with
    | nil =>
      rw [List.cons_append, List.nil_append, crlfIndex_cons2]
      have : ¬(a = 13 && (13 : Nat) = 10) = true := by simp
      simp [this, crlfIndex_cons2]
    | cons b l =>
      rw [crlfIndex_cons2] at h
      by_cases hab : (a = 13 && b = 10) = true
      · simp [hab] at h
      · simp only [hab, Bool.false_eq_true, if_false, Option.map_eq_none'] at h
        rw [List.cons_append, List.cons_append, crlfIndex_cons2]
        have : (b :: l) ++ 13 :: 10 :: r = b :: (l ++ 13 :: 10 :: r) := rfl
        simp only [hab, Bool.false_eq_true, if_false, ← this, ih h]
        simp

/-- A buffer holding exactly one CR LF-terminated frame followed by more
bytes extracts that frame. -/
theorem extractTextResponse_concat (f : List Nat) (r : List Nat)
    (h : crlfIndex f = none) :
    extractTextResponse (f ++ 13 :: 10 :: r) = some (f, r) := by
  unfold extractTextResponse
  rw [crlfIndex_concat f r h]
  simp only [Option.some.injEq, Prod.mk.injEq]
  constructor
  · exact List.take_left f (13 :: 10 :: r)
  · have : f ++ 13 :: 10 :: r = (f ++ [13, 10]) ++ r := by simp
    rw [this]
    have hlen : f.length + 2 = (f ++ [13, 10]).length := by simp
    rw [hlen]
    exact List.drop_left (f ++ [13, 10]) r

theorem textFrames_two (f1 f2 : List Nat) (h1 : crlfIndex f1 = none)
    (h2 : crlfIndex f2 = none) :
    textFrames (f1 ++ 13 :: 10 :: f2 ++ [13, 10]) = [f1, f2] := by
  have e1 : extractTextResponse (f1 ++ 13 :: 10 :: (f2 ++ [13, 10]))
      = some (f1, f2 ++ [13, 10]) := extractTextResponse_concat f1 (f2 ++ [13, 10]) h1
  have e2 : extractTextResponse (f2 ++ 13 :: 10 :: ([] : List Nat)) = some (f2, []) :=
    extractTextResponse_concat f2 [] h2
  have hfix : f1 ++ 13 :: 10 :: f2 ++ [13, 10] = f1 ++ 13 :: 10 :: (f2 ++ [13, 10]) := by
    simp
  rw [hfix, textFrames_some e1]
  have hfix2 : f2 ++ [13, 10] = f2 ++ 13 :: 10 :: ([] : List Nat) := rfl
  rw [hfix2, textFrames_some e2]
  simp

end CrabCache

namespace CrabCache

/-! ## Claim theorems for the framing layer -/

/-- Claim C1: on one connection, after N commands are enqueued back-to-back
(via `sendCommand`) before any reply arrives, delivering the reply bytes in
arbitrary chunks such that their concatenation contains N complete (text)
frames resolves the ith enqueued request with the ith complete frame, for
every i < N, for all N and all chunk splits. -/
theorem fifo_correlation (chunks : List (List Nat)) (N : Nat)
    (h : N ≤ (textFrames chunks.flatten).length) :
    (chunks.foldl handleData (enqueueAll (initialConn false) (List.range N))).completed
      = List.zipWith (fun i f => { id := i, outcome := some (Outcome.replied f) })
          (List.range N) (textFrames chunks.flatten)
    ∧ ∀ i : Nat, i < N →
      ((chunks.foldl handleData (enqueueAll (initialConn false) (List.range N))).completed).get? i
        = ((textFrames chunks.flatten).get? i).map
            fun f => { id := i, outcome := some (Outcome.replied f) } := by
  have h0 : enqueueAll (initialConn false) (List.range N) =
      { useBinary := false, connected := true, buffer := [],
        queue := (List.range N).map fun i => { id := i, outcome := none },
        completed := [] } := by
    rw [enqueueAll_spec]; rfl
  have hmain :
      (chunks.foldl handleData (enqueueAll (initialConn false) (List.range N))).completed
        = List.zipWith (fun i f => { id := i, outcome := some (Outcome.replied f) })
            (List.range N) (textFrames chunks.flatten) := by
    rw [h0, foldl_handleData chunks _ rfl (handleData_nil_quiescent _ rfl)]
    unfold handleData
    rw [processLoop_text_spec]
    simp only [List.nil_append]
    rw [List.zipWith_map_left]
    simp
  refine ⟨hmain, fun i hi => ?_⟩
  rw [hmain, List.get?_zipWith']
  rw [List.get?_range hi]
  simp only [Option.map_some', Option.bind_eq_bind, Option.some_bind]

/-- Claim C2 as stated is false: with requests r1 (id 1) and r2 (id 2)
outstanding, r1 timed out, and the server's two replies `A` and `B`
arriving afterwards, r2 observes its **own** reply `B` — the late reply `A`
is consumed by r1's still-queued record (whose promise is already settled),
not matched to r2.  Subsequent FIFO matching is not shifted by one. -/
theorem timeout_shift_counterexample :
    (handleData (fireTimeout
        { useBinary := false, connected := true, buffer := [],
          queue := [⟨1, none⟩, ⟨2, none⟩], completed := [] } 1)
        ([65] ++ 13 :: 10 :: [66] ++ [13, 10])).completed.get? 1
      = some ⟨2, some (.replied [66])⟩
    ∧ (handleData (fireTimeout
        { useBinary := false, connected := true, buffer := [],
          queue := [⟨1, none⟩, ⟨2, none⟩], completed := [] } 1)
        ([65] ++ 13 :: 10 :: [66] ++ [13, 10])).completed.get? 1
      ≠ some ⟨2, some (.replied [65])⟩ := by decide

/-- Claim C2 (amended): if r1's per-command timer expires, only r1's future
is failed (with `CommandTimeout`), the connection stays connected, r2 is
unaffected, and r1's record is **not** removed from the response stream.
Consequently a later server reply to r1 is absorbed by r1's already-settled
record, and r2 is still resolved with its own (second) reply — late replies
do **not** shift subsequent FIFO matching. -/
theorem timeout_noncancellation (i1 i2 : Nat) (hne : i1 ≠ i2)
    (f1 f2 : List Nat) (h1 : crlfIndex f1 = none) (h2 : crlfIndex f2 = none) :
    (fireTimeout
        { useBinary := false, connected := true, buffer := [],
          queue := [⟨i1, none⟩, ⟨i2, none⟩], completed := [] } i1).connected = true
    ∧ (fireTimeout
        { useBinary := false, connected := true, buffer := [],
          queue := [⟨i1, none⟩, ⟨i2, none⟩], completed := [] } i1).queue
      = [⟨i1, some (.failed .commandTimeout)⟩, ⟨i2, none⟩]
    ∧ (handleData (fireTimeout
        { useBinary := false, connected := true, buffer := [],
          queue := [⟨i1, none⟩, ⟨i2, none⟩], completed := [] } i1)
        (f1 ++ 13 :: 10 :: f2 ++ [13, 10])).completed
      = [⟨i1, some (.failed .commandTimeout)⟩, ⟨i2, some (.replied f2)⟩] := by
  have hne' : i2 ≠ i1 := Ne.symm hne
  have hft : fireTimeout
      { useBinary := false, connected := true, buffer := [],
        queue := [⟨i1, none⟩, ⟨i2, none⟩], completed := [] } i1
      = { useBinary := false, connected := true, buffer := [],
          queue := [⟨i1, some (.failed .commandTimeout)⟩, ⟨i2, none⟩],
          completed := [] } := by
    simp [fireTimeout, hne', Pending.settle]
  refine ⟨by rw [hft], by rw [hft], ?_⟩
  rw [hft]
  unfold handleData
  rw [processLoop_text_spec]
  simp only [List.nil_append]
  rw [textFrames_two f1 f2 h1 h2]
  simp [Pending.settle]

/-- Witness for C2 (amended) at ids 1, 2 and frames `A`, `B`. -/
theorem timeout_noncancellation_witness :
    ((1 : Nat) ≠ 2 ∧ crlfIndex [65] = none ∧ crlfIndex [66] = none)
    ∧ ((fireTimeout
        { useBinary := false, connected := true, buffer := [],
          queue := [⟨1, none⟩, ⟨2, none⟩], completed := [] } 1).connected = true
    ∧ (fireTimeout
        { useBinary := false, connected := true, buffer := [],
          queue := [⟨1, none⟩, ⟨2, none⟩], completed := [] } 1).queue
      = [⟨1, some (.failed .commandTimeout)⟩, ⟨2, none⟩]
    ∧ (handleData (fireTimeout
        { useBinary := false, connected := true, buffer := [],
          queue := [⟨1, none⟩, ⟨2, none⟩], completed := [] } 1)
        ([65] ++ 13 :: 10 :: [66] ++ [13, 10])).completed
      = [⟨1, some (.failed .commandTimeout)⟩, ⟨2, some (.replied [66])⟩]) :=
  ⟨by decide, timeout_noncancellation 1 2 (by decide) [65] [66] (by decide) (by decide)⟩

/-- Claim C3 as stated is false at the concrete buffer `[0x00, 65, 66]`:
the unrecognized tag 0x00 is **not** treated as a fatal protocol error —
the thrown error is caught, extraction reports "incomplete", and the
connection waits indefinitely with the buffer unchanged and the pending
request unresolved. -/
theorem unknown_tag_counterexample :
    extractBinaryResponse [0, 65, 66] = none
    ∧ (handleData
        { useBinary := true, connected := true, buffer := [],
          queue := [⟨1, none⟩], completed := [] } [0, 65, 66]).buffer = [0, 65, 66]
    ∧ (handleData
        { useBinary := true, connected := true, buffer := [],
          queue := [⟨1, none⟩], completed := [] } [0, 65, 66]).queue = [⟨1, none⟩]
    ∧ (handleData
        { useBinary := true, connected := true, buffer := [],
          queue := [⟨1, none⟩], completed := [] } [0, 65, 66]).completed = [] := by
  decide

/-- Claim C3 (amended): under binary framing, a receive buffer whose first
byte is not one of the six recognized tags makes the `switch` throw, but
the surrounding `catch` swallows the error and yields "incomplete, wait for
more data": the buffer is left unchanged, no pending request is settled,
and the connection stalls instead of failing. -/
theorem unknown_tag_stalls (b : Nat) (rest : List Nat)
    (hb : b ≠ 0x10 ∧ b ≠ 0x11 ∧ b ≠ 0x12 ∧ b ≠ 0x13 ∧ b ≠ 0x14 ∧ b ≠ 0x15) :
    extractBinaryInner (b :: rest) = .error "Unknown response type"
    ∧ extractBinaryResponse (b :: rest) = none
    ∧ (∀ (Q C : List Pending), processLoop true (b :: rest) Q C = (b :: rest, Q, C))
    ∧ ∀ st : ConnState, st.useBinary = true → st.buffer = [] →
        handleData st (b :: rest) = { st with buffer := b :: rest } := by
  obtain ⟨h10, h11, h12, h13, h14, h15⟩ := hb
  have hinner : extractBinaryInner (b :: rest) = .error "Unknown response type" := by
    unfold extractBinaryInner
    simp [h10, h11, h12, h13, h14, h15]
  have hext : extractBinaryResponse (b :: rest) = none := by
    unfold extractBinaryResponse
    rw [hinner]
    simp
  have hloop : ∀ (Q C : List Pending),
      processLoop true (b :: rest) Q C = (b :: rest, Q, C) := by
    intro Q C
    cases Q with
    | nil => exact processLoop_nil_queue true _ _
    | cons p ps =>
      exact processLoop_stuck true _ p ps C (by simpa [extractResponse] using hext)
  refine ⟨hinner, hext, hloop, ?_⟩
  intro st hub hbuf
  unfold handleData
  rw [hub, hbuf, List.nil_append, hloop st.queue st.completed]

/-- Witness for C3 (amended) at tag byte 0x42. -/
theorem unknown_tag_stalls_witness :
    ((66 : Nat) ≠ 0x10 ∧ (66 : Nat) ≠ 0x11 ∧ (66 : Nat) ≠ 0x12 ∧
     (66 : Nat) ≠ 0x13 ∧ (66 : Nat) ≠ 0x14 ∧ (66 : Nat) ≠ 0x15)
    ∧ (extractBinaryInner [66, 1] = .error "Unknown response type"
    ∧ extractBinaryResponse [66, 1] = none
    ∧ (∀ (Q C : List Pending), processLoop true [66, 1] Q C = ([66, 1], Q, C))
    ∧ ∀ st : ConnState, st.useBinary = true → st.buffer = [] →
        handleData st [66, 1] = { st with buffer := [66, 1] }) :=
  ⟨by decide, unknown_tag_stalls 66 [1] (by decide)⟩

/-- Claim C4 as stated is false at a concrete input: with one record
(id 1) already outstanding, a `sendPipelineCommands` call enqueueing one
blob (id 2) whose write fails does **not** leave the pre-existing record
enqueued and unsettled — the pending queue is emptied and record 1 is
failed with the write error as well. -/
theorem pipeline_write_failure_counterexample :
    (sendPipelineCommands
        { useBinary := false, connected := true, buffer := [],
          queue := [⟨1, none⟩], completed := [] } [[7]] [2] false).1.queue ≠ [⟨1, none⟩]
    ∧ (⟨1, some (.failed .writeFailed)⟩ : Pending) ∈
        (sendPipelineCommands
          { useBinary := false, connected := true, buffer := [],
            queue := [⟨1, none⟩], completed := [] } [[7]] [2] false).1.completed := by
  decide

/-- Claim C4 (amended): `sendPipelineCommands` with K blobs enqueues one
record per blob in call order and issues a single concatenated write; if
that write fails, **all** pending records on the connection — the K just
enqueued ones and every record already outstanding before the call — are
removed from the queue, and each of them that was still unsettled is failed
with the write error. -/
theorem pipeline_write_failure (st : ConnState) (blobs : List (List Nat))
    (newIds : List Nat) (hlen : newIds.length = blobs.length) :
    (sendPipelineCommands st blobs newIds true).1.queue
      = st.queue ++ (newIds.map fun i => { id := i, outcome := none })
    ∧ (sendPipelineCommands st blobs newIds true).1.queue.length
      = st.queue.length + blobs.length
    ∧ (sendPipelineCommands st blobs newIds true).2 = blobs.flatten
    ∧ (sendPipelineCommands st blobs newIds false).2 = blobs.flatten
    ∧ (sendPipelineCommands st blobs newIds false).1.queue = []
    ∧ (∀ r ∈ st.queue, r.outcome = none →
        (⟨r.id, some (.failed .writeFailed)⟩ : Pending) ∈
          (sendPipelineCommands st blobs newIds false).1.completed)
    ∧ ∀ i ∈ newIds, (⟨i, some (.failed .writeFailed)⟩ : Pending) ∈
        (sendPipelineCommands st blobs newIds false).1.completed := by
  refine ⟨rfl, ?_, rfl, rfl, rfl, ?_, ?_⟩
  · show (st.queue ++ (newIds.map fun i => ({ id := i, outcome := none } : Pending))).length = _
    simp [hlen]
  · intro r hr hout
    show _ ∈ st.completed ++ _
    rw [List.mem_append]
    right
    rw [List.mem_map]
    refine ⟨r, ?_, ?_⟩
    · rw [List.mem_reverse, List.mem_append]; exact Or.inl hr
    · obtain ⟨ri, ro⟩ := r
      simp only at hout
      subst hout
      rfl
  · intro i hi
    show _ ∈ st.completed ++ _
    rw [List.mem_append]
    right
    rw [List.mem_map]
    refine ⟨⟨i, none⟩, ?_, rfl⟩
    rw [List.mem_reverse, List.mem_append]
    right
    rw [List.mem_map]
    exact ⟨i, hi, rfl⟩

/-- Witness for C4 (amended): one record outstanding, two blobs enqueued. -/
theorem pipeline_write_failure_witness :
    ([2, 3].length = [[7], [8]].length)
    ∧ ((sendPipelineCommands
          { useBinary := false, connected := true, buffer := [],
            queue := [⟨1, none⟩], completed := [] } [[7], [8]] [2, 3] true).1.queue
      = [⟨1, none⟩] ++ ([2, 3].map fun i => { id := i, outcome := none })
    ∧ (sendPipelineCommands
          { useBinary := false, connected := true, buffer := [],
            queue := [⟨1, none⟩], completed := [] } [[7], [8]] [2, 3] true).1.queue.length
      = [(⟨1, none⟩ : Pending)].length + [[7], [8]].length
    ∧ (sendPipelineCommands
          { useBinary := false, connected := true, buffer := [],
            queue := [⟨1, none⟩], completed := [] } [[7], [8]] [2, 3] true).2
      = [[7], [8]].flatten
    ∧ (sendPipelineCommands
          { useBinary := false, connected := true, buffer := [],
            queue := [⟨1, none⟩], completed := [] } [[7], [8]] [2, 3] false).2
      = [[7], [8]].flatten
    ∧ (sendPipelineCommands
          { useBinary := false, connected := true, buffer := [],
            queue := [⟨1, none⟩], completed := [] } [[7], [8]] [2, 3] false).1.queue = []
    ∧ (∀ r ∈ [(⟨1, none⟩ : Pending)], r.outcome = none →
        (⟨r.id, some (.failed .writeFailed)⟩ : Pending) ∈
          (sendPipelineCommands
            { useBinary := false, connected := true, buffer := [],
              queue := [⟨1, none⟩], completed := [] } [[7], [8]] [2, 3] false).1.completed)
    ∧ ∀ i ∈ [2, 3], (⟨i, some (.failed .writeFailed)⟩ : Pending) ∈
        (sendPipelineCommands
          { useBinary := false, connected := true, buffer := [],
            queue := [⟨1, none⟩], completed := [] } [[7], [8]] [2, 3] false).1.completed) :=
  ⟨by decide,
   pipeline_write_failure
     { useBinary := false, connected := true, buffer := [],
       queue := [⟨1, none⟩], completed := [] } [[7], [8]] [2, 3] (by decide)⟩

/-- Witness for C1: two frames `A` and `B` delivered in three chunks whose
boundaries fall inside and between frames. -/
theorem fifo_correlation_witness :
    2 ≤ (textFrames ([[65], [13], [10, 66, 13], [10]].flatten)).length ∧
    ((([[65], [13], [10, 66, 13], [10]] : List (List Nat)).foldl handleData
        (enqueueAll (initialConn false) (List.range 2))).completed
      = List.zipWith (fun i f => { id := i, outcome := some (Outcome.replied f) })
          (List.range 2) (textFrames ([[65], [13], [10, 66, 13], [10]].flatten))
    ∧ ∀ i : Nat, i < 2 →
      ((([[65], [13], [10, 66, 13], [10]] : List (List Nat)).foldl handleData
          (enqueueAll (initialConn false) (List.range 2))).completed).get? i
        = ((textFrames ([[65], [13], [10, 66, 13], [10]].flatten)).get? i).map
            fun f => { id := i, outcome := some (Outcome.replied f) }) :=
  ⟨by decide, fifo_correlation [[65], [13], [10, 66, 13], [10]] 2 (by decide)⟩

end CrabCache

namespace CrabCache

/-! ## Connection pool (`pool.ts`)

A `PooledConnection` record wraps one connection; the underlying
`CrabCacheConnection` object is represented by its identity `connId`
together with the observable `isConnected()` flag. -/

structure PooledConnection where
  connId : Nat
  connected : Bool
  inUse : Bool
  createdAt : Nat
  lastUsed : Nat
  healthCheckFailures : Nat
deriving DecidableEq, Repr

structure ConnectionPoolMetrics where
  activeConnections : Nat
  idleConnections : Nat
  totalCreated : Nat
  poolHits : Nat
  poolMisses : Nat
  healthCheckFailures : Nat
deriving DecidableEq, Repr

/-- Pool state: the record list, metrics, the configured `poolSize`, and
the current clock value used for `new Date()`. -/
structure PoolState where
  connections : List PooledConnection
  metrics : ConnectionPoolMetrics
  poolSize : Nat
  now : Nat
deriving DecidableEq, Repr

/-- The idle-and-connected predicate used by `acquire`'s `find`:
`!conn.inUse && conn.connection.isConnected()`. -/
def isIdleConnected (c : PooledConnection) : Bool := !c.inUse && c.connected

/-- `updateMetrics()`: recompute the active/idle counters from the list. -/
def updateMetrics (p : PoolState) : PoolState :=
  { p with metrics :=
      { p.metrics with
        activeConnections := (p.connections.filter (·.inUse)).length,
        idleConnections := (p.connections.filter fun c => !c.inUse).length } }

/-- Mark the first idle-connected record in-use and stamp `lastUsed`
(the in-place mutation of the record `find` returned). -/
def markFirstIdle (now : Nat) : List PooledConnection → List PooledConnection
  | [] => []
  | c :: cs =>
    if isIdleConnected c then { c with inUse := true, lastUsed := now } :: cs
    else c :: markFirstIdle now cs

/-- `createConnection()`, success path: the new record is pushed in-use,
`totalCreated` is bumped and the active/idle counters recomputed. -/
def createConnection (p : PoolState) (newId : Nat) : PoolState :=
  updateMetrics
    { p with
      connections := p.connections ++
        [{ connId := newId, connected := true, inUse := true,
           createdAt := p.now, lastUsed := p.now, healthCheckFailures := 0 }],
      metrics := { p.metrics with totalCreated := p.metrics.totalCreated + 1 } }

/-- Result of the synchronous part of `acquire()`: an idle record was
handed out (`hit`), a fresh connection was created (`missCreated`), or the
pool is saturated and the caller enters the 10ms poll loop (`mustWait`). -/
inductive AcquireResult where
  | hit (connId : Nat) (p : PoolState)
  | missCreated (connId : Nat) (p : PoolState)
  | mustWait
deriving DecidableEq, Repr

/-- `acquire()` (the part before the poll loop), with `newId` the identity
of the connection `createConnection` would make. -/
def acquire (p : PoolState) (newId : Nat) : AcquireResult :=
  match p.connections.find? isIdleConnected with
  | some c =>
    .hit c.connId
      (updateMetrics
        { p with
          connections := markFirstIdle p.now p.connections,
          metrics := { p.metrics with poolHits := p.metrics.poolHits + 1 } })
  | none =>
    if p.connections.length < p.poolSize then
      let p' := createConnection p newId
      .missCreated newId
        { p' with metrics := { p'.metrics with poolMisses := p'.metrics.poolMisses + 1 } }
    else .mustWait

/-- The `checkForConnection` poll loop: one entry of `states` is the pool
state observed at each successive 10ms poll; `fuel` is the number of polls
that fit into the configured connection timeout, after which the
`setTimeout` rejection fires. -/
def checkForConnection (fuel : Nat) (states : List PoolState) :
    Except String (Nat × PoolState) :=
  match fuel, states with
  | 0, _ => .error "Pool acquisition timeout"
  | _ + 1, [] => .error "Pool acquisition timeout"
  | fuel + 1, p :: rest =>
    match p.connections.find? isIdleConnected with
    | some c =>
      .ok (c.connId,
        updateMetrics
          { p with
            connections := markFirstIdle p.now p.connections,
            metrics := { p.metrics with poolHits := p.metrics.poolHits + 1 } })
    | none => checkForConnection fuel rest

/-- Replace the first record wrapping connection `i` by its released
version (`inUse := false`, `lastUsed` stamped); `none` if no record
wraps `i`. -/
def releaseFirst (now i : Nat) : List PooledConnection → Option (List PooledConnection)
  | [] => none
  | c :: cs =>
    if c.connId = i then some ({ c with inUse := false, lastUsed := now } :: cs)
    else (releaseFirst now i cs).map (c :: ·)

/-- `release()`: find the matching record; if absent do nothing at all,
otherwise clear `inUse`, stamp `lastUsed` and recompute active/idle. -/
def release (p : PoolState) (i : Nat) : PoolState :=
  match releaseFirst p.now i p.connections with
  | none => p
  | some l => updateMetrics { p with connections := l }

/-- Whether the probe of one idle record fails: a disconnected record
throws `Connection not connected` before sending; otherwise the PING
outcome is given by the oracle `probeOk`. -/
def probeFails (probeOk : Nat → Bool) (c : PooledConnection) : Bool :=
  !(c.connected && probeOk c.connId)

/-- Effect of one health-check pass on one record: in-use records are
skipped; a successful probe resets the failure counter; a failed probe
increments it and, past the threshold 3, removes (destroys) the record. -/
def probeRecord (probeOk : Nat → Bool) (c : PooledConnection) : Option PooledConnection :=
  if c.inUse then some c
  else if c.connected && probeOk c.connId then some { c with healthCheckFailures := 0 }
  else if 3 < c.healthCheckFailures + 1 then none
  else some { c with healthCheckFailures := c.healthCheckFailures + 1 }

/-- `performHealthCheck()`: probe every idle record, accumulate the
pool-wide failure counter, drop evicted records, recompute active/idle. -/
def performHealthCheck (probeOk : Nat → Bool) (p : PoolState) : PoolState :=
  updateMetrics
    { p with
      connections := p.connections.filterMap (probeRecord probeOk),
      metrics :=
        { p.metrics with
          healthCheckFailures := p.metrics.healthCheckFailures +
            (p.connections.filter fun c => !c.inUse && probeFails probeOk c).length } }

/-- `warmUp(n)`: the number of connections to create is computed once as
`min(n, poolSize) - connections.length` (clamped at 0, the `<= 0` early
return); each one is created and then immediately released.  `newIds`
supplies the identities of the connections created. -/
def warmUp (p : PoolState) (n : Nat) (newIds : List Nat) : PoolState :=
  let k := min n p.poolSize - p.connections.length
  if k = 0 then p
  else (newIds.take k).foldl (fun q i => release (createConnection q i) i) p

end CrabCache

namespace CrabCache

/-! ## Pool lemmas -/

@[simp] theorem updateMetrics_connections (p : PoolState) :
    (updateMetrics p).connections = p.connections := rfl

@[simp] theorem updateMetrics_poolSize (p : PoolState) :
    (updateMetrics p).poolSize = p.poolSize := rfl

@[simp] theorem updateMetrics_now (p : PoolState) :
    (updateMetrics p).now = p.now := rfl

@[simp] theorem updateMetrics_poolHits (p : PoolState) :
    (updateMetrics p).metrics.poolHits = p.metrics.poolHits := rfl

@[simp] theorem updateMetrics_poolMisses (p : PoolState) :
    (updateMetrics p).metrics.poolMisses = p.metrics.poolMisses := rfl

@[simp] theorem updateMetrics_totalCreated (p : PoolState) :
    (updateMetrics p).metrics.totalCreated = p.metrics.totalCreated := rfl

@[simp] theorem updateMetrics_healthCheckFailures (p : PoolState) :
    (updateMetrics p).metrics.healthCheckFailures = p.metrics.healthCheckFailures := rfl

/-- The identities of the connections currently pooled. -/
def poolIds (p : PoolState) : List Nat := p.connections.map (·.connId)

theorem find?_idle_split (now : Nat) {l : List PooledConnection} {c : PooledConnection}
    (h : l.find? isIdleConnected = some c) :
    ∃ l1 l2, l = l1 ++ c :: l2
      ∧ (∀ x ∈ l1, isIdleConnected x = false)
      ∧ isIdleConnected c = true
      ∧ markFirstIdle now l = l1 ++ { c with inUse := true, lastUsed := now } :: l2 := by
  induction l with
  | nil => simp at h
  | cons a cs ih =>
    by_cases ha : isIdleConnected a = true
    · rw [List.find?_cons_of_pos _ ha] at h
      obtain rfl : a = c := by simpa using h
      exact ⟨[], cs, by simp, by simp, ha, by simp [markFirstIdle, ha]⟩
    · rw [List.find?_cons_of_neg _ ha] at h
      obtain ⟨l1, l2, hl, hl1, hc, hm⟩ := ih h
      refine ⟨a :: l1, l2, by rw [hl]; rfl, ?_, hc, ?_⟩
      · intro x hx
        rcases List.mem_cons.mp hx with rfl | hx'
        · simpa using ha
        · exact hl1 x hx'
      · simp only [markFirstIdle, if_neg ha, hm]
        rfl

theorem markFirstIdle_connIds (now : Nat) (l : List PooledConnection) :
    (markFirstIdle now l).map (·.connId) = l.map (·.connId) := by
  induction l with
  | nil => rfl
  | cons a cs ih =>
    by_cases ha : isIdleConnected a = true
    · simp [markFirstIdle, ha]
    · simp only [markFirstIdle, if_neg ha, List.map_cons, ih]

theorem releaseFirst_none_iff (now i : Nat) (l : List PooledConnection) :
    releaseFirst now i l = none ↔ ∀ c ∈ l, c.connId ≠ i := by
  induction l with
  | nil => simp [releaseFirst]
  | cons a cs ih =>
    by_cases ha : a.connId = i
    · simp [releaseFirst, ha]
    · simp [releaseFirst, ha, ih]

theorem releaseFirst_cons (now i : Nat) (a : PooledConnection)
    (cs : List PooledConnection) :
    releaseFirst now i (a :: cs)
      = if a.connId = i then some ({ a with inUse := false, lastUsed := now } :: cs)
        else (releaseFirst now i cs).map (a :: ·) := rfl

theorem releaseFirst_split (now i : Nat) (l1 : List PooledConnection)
    (c : PooledConnection) (l2 : List PooledConnection)
    (hc : c.connId = i) (hl1 : ∀ x ∈ l1, x.connId ≠ i) :
    releaseFirst now i (l1 ++ c :: l2)
      = some (l1 ++ { c with inUse := false, lastUsed := now } :: l2) := by
  induction l1 with
  | nil => simp [releaseFirst_cons, hc]
  | cons a as ih =>
    have ha : a.connId ≠ i := hl1 a (List.mem_cons_self a as)
    rw [List.cons_append, releaseFirst_cons, if_neg ha,
        ih fun x hx => hl1 x (List.mem_cons_of_mem a hx)]
    rfl

theorem releaseFirst_connIds (now i : Nat) :
    ∀ (l l' : List PooledConnection), releaseFirst now i l = some l' →
    l'.map (·.connId) = l.map (·.connId) := by
  intro l
  induction l with
  | nil => intro l' h; simp [releaseFirst] at h
  | cons a cs ih =>
    intro l' h
    by_cases ha : a.connId = i
    · simp only [releaseFirst, if_pos ha, Option.some.injEq] at h
      subst h
      simp
    · simp only [releaseFirst, if_neg ha, Option.map_eq_some'] at h
      obtain ⟨l'', hl'', rfl⟩ := h
      simp [ih l'' hl'']

theorem release_connIds (p : PoolState) (i : Nat) :
    poolIds (release p i) = poolIds p := by
  unfold release
  cases h : releaseFirst p.now i p.connections with
  | none => rfl
  | some l => simp only [poolIds, updateMetrics_connections]
              exact releaseFirst_connIds p.now i p.connections l h

theorem probeRecord_connId (probeOk : Nat → Bool) (c c' : PooledConnection)
    (h : probeRecord probeOk c = some c') : c'.connId = c.connId := by
  unfold probeRecord at h
  split at h
  · simp at h; subst h; rfl
  · split at h
    · simp at h; subst h; rfl
    · split at h
      · simp at h
      · simp at h; subst h; rfl

theorem healthCheck_ids_sub (probeOk : Nat → Bool) (p : PoolState) :
    ∀ x ∈ poolIds (performHealthCheck probeOk p), x ∈ poolIds p := by
  intro x hx
  simp only [poolIds, performHealthCheck, updateMetrics_connections, List.mem_map] at hx
  obtain ⟨c', hc', rfl⟩ := hx
  obtain ⟨a, ha, hpa⟩ := List.mem_filterMap.mp hc'
  rw [probeRecord_connId probeOk a c' hpa]
  exact List.mem_map.mpr ⟨a, ha, rfl⟩

theorem createConnection_connections (p : PoolState) (i : Nat) :
    (createConnection p i).connections = p.connections ++
      [{ connId := i, connected := true, inUse := true,
         createdAt := p.now, lastUsed := p.now, healthCheckFailures := 0 }] := rfl

theorem releaseFirst_append_fresh (now i : Nat) (l : List PooledConnection)
    (r : PooledConnection) (hr : r.connId = i) (hl : ∀ c ∈ l, c.connId ≠ i) :
    releaseFirst now i (l ++ [r])
      = some (l ++ [{ r with inUse := false, lastUsed := now }]) :=
  releaseFirst_split now i l r [] hr hl

end CrabCache

namespace CrabCache

/-! ## Pool operation traces

The externally-triggerable pool operations, used to state "never returned
by a subsequent `acquire()`".  Fresh connection identities created by an
operation are listed by `opNewIds`. -/

inductive PoolOp where
  | opAcquire (newId : Nat)
  | opRelease (connId : Nat)
  | opHealth (probeOk : Nat → Bool)
  | opWarmUp (n : Nat) (newIds : List Nat)

def applyOp (p : PoolState) : PoolOp → PoolState
  | .opAcquire newId =>
    match acquire p newId with
    | .hit _ q => q
    | .missCreated _ q => q
    | .mustWait => p
  | .opRelease i => release p i
  | .opHealth probeOk => performHealthCheck probeOk p
  | .opWarmUp n newIds => warmUp p n newIds

/-- The connection identity an operation hands to the caller, if any. -/
def returnedBy (p : PoolState) : PoolOp → Option Nat
  | .opAcquire newId =>
    match acquire p newId with
    | .hit i _ => some i
    | .missCreated i _ => some i
    | .mustWait => none
  | _ => none

def opNewIds : PoolOp → List Nat
  | .opAcquire newId => [newId]
  | .opWarmUp _ newIds => newIds
  | _ => []

def runOps (p : PoolState) (ops : List PoolOp) : PoolState :=
  ops.foldl applyOp p

theorem warm_fold_ids (l : List Nat) : ∀ (q : PoolState) (x : Nat),
    x ∈ poolIds (l.foldl (fun q i => release (createConnection q i) i) q) →
    x ∈ poolIds q ∨ x ∈ l := by
  induction l with
  | nil => intro q x hx; exact Or.inl hx
  | cons i is ih =>
    intro q x hx
    rcases ih (release (createConnection q i) i) x hx with h | h
    · rw [release_connIds] at h
      simp only [poolIds, createConnection_connections, List.map_append,
        List.mem_append, List.mem_map] at h
      rcases h with h | h
      · exact Or.inl (List.mem_map.mpr h)
      · simp at h
        exact Or.inr (by simp [h])
    · exact Or.inr (List.mem_cons_of_mem i h)

theorem acquire_find_some {p : PoolState} {newId : Nat} {c : PooledConnection}
    (hf : p.connections.find? isIdleConnected = some c) :
    acquire p newId = .hit c.connId
      (updateMetrics
        { p with
          connections := markFirstIdle p.now p.connections,
          metrics := { p.metrics with poolHits := p.metrics.poolHits + 1 } }) := by
  unfold acquire
  rw [hf]

theorem acquire_find_none_lt {p : PoolState} {newId : Nat}
    (hf : p.connections.find? isIdleConnected = none)
    (hlt : p.connections.length < p.poolSize) :
    acquire p newId = .missCreated newId
      { createConnection p newId with
        metrics := { (createConnection p newId).metrics with
          poolMisses := (createConnection p newId).metrics.poolMisses + 1 } } := by
  unfold acquire
  rw [hf]
  exact if_pos hlt

theorem acquire_find_none_ge {p : PoolState} {newId : Nat}
    (hf : p.connections.find? isIdleConnected = none)
    (hge : ¬ p.connections.length < p.poolSize) :
    acquire p newId = .mustWait := by
  unfold acquire
  rw [hf]
  exact if_neg hge

theorem acquire_hit_ids {p : PoolState} {newId i : Nat} {q : PoolState}
    (h : acquire p newId = .hit i q) :
    poolIds q = poolIds p ∧ i ∈ poolIds p := by
  cases hf : p.connections.find? isIdleConnected with
  | some c =>
    rw [acquire_find_some hf] at h
    simp only [AcquireResult.hit.injEq] at h
    obtain ⟨rfl, rfl⟩ := h
    constructor
    · simp only [poolIds, updateMetrics_connections]
      exact markFirstIdle_connIds p.now p.connections
    · exact List.mem_map.mpr ⟨c, List.mem_of_find?_eq_some hf, rfl⟩
  | none =>
    by_cases hlt : p.connections.length < p.poolSize
    · rw [acquire_find_none_lt hf hlt] at h; simp at h
    · rw [acquire_find_none_ge hf hlt] at h; simp at h

theorem acquire_miss_ids {p : PoolState} {newId i : Nat} {q : PoolState}
    (h : acquire p newId = .missCreated i q) :
    poolIds q = poolIds p ++ [newId] ∧ i = newId := by
  cases hf : p.connections.find? isIdleConnected with
  | some c => rw [acquire_find_some hf] at h; simp at h
  | none =>
    by_cases hlt : p.connections.length < p.poolSize
    · rw [acquire_find_none_lt hf hlt] at h
      simp only [AcquireResult.missCreated.injEq] at h
      obtain ⟨rfl, rfl⟩ := h
      refine ⟨?_, rfl⟩
      simp [poolIds, createConnection_connections]
    · rw [acquire_find_none_ge hf hlt] at h; simp at h

theorem applyOp_opRelease (p : PoolState) (j : Nat) :
    applyOp p (.opRelease j) = release p j := rfl

theorem applyOp_opHealth (p : PoolState) (probeOk : Nat → Bool) :
    applyOp p (.opHealth probeOk) = performHealthCheck probeOk p := rfl

theorem applyOp_opWarmUp (p : PoolState) (n : Nat) (ids : List Nat) :
    applyOp p (.opWarmUp n ids) = warmUp p n ids := rfl

theorem returnedBy_opRelease (p : PoolState) (j : Nat) :
    returnedBy p (.opRelease j) = none := rfl

theorem returnedBy_opHealth (p : PoolState) (probeOk : Nat → Bool) :
    returnedBy p (.opHealth probeOk) = none := rfl

theorem returnedBy_opWarmUp (p : PoolState) (n : Nat) (ids : List Nat) :
    returnedBy p (.opWarmUp n ids) = none := rfl

theorem applyOp_opAcquire_hit {p : PoolState} {newId i : Nat} {q : PoolState}
    (ha : acquire p newId = .hit i q) :
    applyOp p (.opAcquire newId) = q ∧ returnedBy p (.opAcquire newId) = some i := by
  constructor
  · show (match acquire p newId with
      | .hit _ q => q | .missCreated _ q => q | .mustWait => p) = q
    rw [ha]
  · show (match acquire p newId with
      | .hit i _ => some i | .missCreated i _ => some i | .mustWait => none) = some i
    rw [ha]

theorem applyOp_opAcquire_miss {p : PoolState} {newId i : Nat} {q : PoolState}
    (ha : acquire p newId = .missCreated i q) :
    applyOp p (.opAcquire newId) = q ∧ returnedBy p (.opAcquire newId) = some i := by
  constructor
  · show (match acquire p newId with
      | .hit _ q => q | .missCreated _ q => q | .mustWait => p) = q
    rw [ha]
  · show (match acquire p newId with
      | .hit i _ => some i | .missCreated i _ => some i | .mustWait => none) = some i
    rw [ha]

theorem applyOp_opAcquire_wait {p : PoolState} {newId : Nat}
    (ha : acquire p newId = .mustWait) :
    applyOp p (.opAcquire newId) = p ∧ returnedBy p (.opAcquire newId) = none := by
  constructor
  · show (match acquire p newId with
      | .hit _ q => q | .missCreated _ q => q | .mustWait => p) = p
    rw [ha]
  · show (match acquire p newId with
      | .hit i _ => some i | .missCreated i _ => some i | .mustWait => none) = none
    rw [ha]

/-- One pool operation can neither resurrect nor hand out a connection
identity that is absent from the pool, provided the operation's fresh
identities avoid it. -/
theorem applyOp_fresh (p : PoolState) (op : PoolOp) (x : Nat)
    (hx : x ∉ poolIds p) (hop : x ∉ opNewIds op) :
    x ∉ poolIds (applyOp p op) ∧ returnedBy p op ≠ some x := by
  cases op with
  | opAcquire newId =>
    have hxn : x ≠ newId := by
      intro h; exact hop (by simp [opNewIds, h])
    cases ha : acquire p newId with
    | hit i q =>
      obtain ⟨hq, hi⟩ := acquire_hit_ids ha
      obtain ⟨he1, he2⟩ := applyOp_opAcquire_hit ha
      rw [he1, he2, hq]
      refine ⟨hx, ?_⟩
      intro hcon
      have : i = x := by injection hcon
      exact hx (this ▸ hi)
    | missCreated i q =>
      obtain ⟨hq, rfl⟩ := acquire_miss_ids ha
      obtain ⟨he1, he2⟩ := applyOp_opAcquire_miss ha
      rw [he1, he2, hq]
      constructor
      · simp only [List.mem_append, List.mem_singleton]
        rintro (h | h)
        · exact hx h
        · exact hxn h
      · intro hcon
        have hix : i = x := by injection hcon
        exact hxn hix.symm
    | mustWait =>
      obtain ⟨he1, he2⟩ := applyOp_opAcquire_wait ha
      rw [he1, he2]
      exact ⟨hx, by simp⟩
  | opRelease j =>
    rw [applyOp_opRelease, returnedBy_opRelease, release_connIds]
    exact ⟨hx, by simp⟩
  | opHealth probeOk =>
    rw [applyOp_opHealth, returnedBy_opHealth]
    refine ⟨fun h => hx (healthCheck_ids_sub probeOk p x h), by simp⟩
  | opWarmUp n newIds =>
    rw [applyOp_opWarmUp, returnedBy_opWarmUp]
    refine ⟨?_, by simp⟩
    intro h
    unfold warmUp at h
    by_cases hk : min n p.poolSize - p.connections.length = 0
    · rw [if_pos hk] at h; exact hx h
    · rw [if_neg hk] at h
      rcases warm_fold_ids _ p x h with h' | h'
      · exact hx h'
      · exact hop (by simpa [opNewIds] using List.mem_of_mem_take h')

theorem runOps_fresh (ops : List PoolOp) : ∀ (p : PoolState) (x : Nat),
    x ∉ poolIds p → (∀ o ∈ ops, x ∉ opNewIds o) →
    x ∉ poolIds (runOps p ops) := by
  induction ops with
  | nil => intro p x hx _; exact hx
  | cons o os ih =>
    intro p x hx hops
    have h1 := applyOp_fresh p o x hx (hops o (List.mem_cons_self o os))
    exact ih (applyOp p o) x h1.1 fun o' ho' => hops o' (List.mem_cons_of_mem o ho')

end CrabCache

namespace CrabCache

theorem checkForConnection_zero (states : List PoolState) :
    checkForConnection 0 states = .error "Pool acquisition timeout" := by
  cases states <;> rfl

theorem checkForConnection_cons (k : Nat) (q : PoolState) (rest : List PoolState) :
    checkForConnection (k + 1) (q :: rest)
      = match q.connections.find? isIdleConnected with
        | some c =>
          .ok (c.connId,
            updateMetrics
              { q with
                connections := markFirstIdle q.now q.connections,
                metrics := { q.metrics with poolHits := q.metrics.poolHits + 1 } })
        | none => checkForConnection k rest := rfl

theorem checkForConnection_error_iff : ∀ (fuel : Nat) (states : List PoolState),
    checkForConnection fuel states = .error "Pool acquisition timeout"
      ↔ ∀ q ∈ states.take fuel, q.connections.find? isIdleConnected = none := by
  intro fuel
  induction fuel with
  | zero => intro states; simp [checkForConnection_zero]
  | succ k ih =>
    intro states
    cases states with
    | nil => simp [checkForConnection]
    | cons q rest =>
      rw [checkForConnection_cons]
      cases hf : q.connections.find? isIdleConnected with
      | some c =>
        simp only [hf]
        constructor
        · intro h; exact absurd h (by simp)
        · intro h
          have := h q (by simp)
          rw [hf] at this
          exact absurd this (by simp)
      | none =>
        simp only [hf, List.take_succ_cons, List.mem_cons]
        constructor
        · intro h q' hq'
          rcases hq' with rfl | hq'
          · exact hf
          · exact (ih rest).mp h q' hq'
        · intro h
          exact (ih rest).mpr fun q' hq' => h q' (Or.inr hq')

/-- Claim C5: `acquire()` is a three-way case split.  (1) If an idle,
still-connected record exists (the first such record, as `find` locates
it), it is marked in-use with its last-used timestamp refreshed, the
pool-hit counter is incremented, and its connection is returned.  (2)
Otherwise, if the pool is below `poolSize`, a new connection is created
(in-use, `totalCreated` bumped), the pool-miss counter is incremented and
it is returned.  (3) Otherwise the caller polls (one `states` entry per
10ms tick, `fuel` polls fitting in the configured connection timeout) and
fails with `Pool acquisition timeout` exactly when no polled state offers
an idle connected record; the first poll that finds one returns it. -/
theorem acquire_spec (p : PoolState) (newId : Nat) :
    (∀ c, p.connections.find? isIdleConnected = some c →
      ∃ l1 l2, p.connections = l1 ++ c :: l2
        ∧ (∀ x ∈ l1, isIdleConnected x = false)
        ∧ isIdleConnected c = true
        ∧ acquire p newId = .hit c.connId
            (updateMetrics
              { p with
                connections := l1 ++ { c with inUse := true, lastUsed := p.now } :: l2,
                metrics := { p.metrics with poolHits := p.metrics.poolHits + 1 } }))
    ∧ (p.connections.find? isIdleConnected = none → p.connections.length < p.poolSize →
        ∃ q, acquire p newId = .missCreated newId q
          ∧ q.connections = p.connections ++
              [{ connId := newId, connected := true, inUse := true,
                 createdAt := p.now, lastUsed := p.now, healthCheckFailures := 0 }]
          ∧ q.metrics.poolMisses = p.metrics.poolMisses + 1
          ∧ q.metrics.totalCreated = p.metrics.totalCreated + 1
          ∧ q.metrics.poolHits = p.metrics.poolHits)
    ∧ (p.connections.find? isIdleConnected = none → ¬ p.connections.length < p.poolSize →
        acquire p newId = .mustWait)
    ∧ (∀ fuel states, checkForConnection fuel states = .error "Pool acquisition timeout"
        ↔ ∀ q ∈ states.take fuel, q.connections.find? isIdleConnected = none)
    ∧ ∀ (fuel : Nat) (q : PoolState) (rest : List PoolState) (c : PooledConnection),
        q.connections.find? isIdleConnected = some c →
        ∃ q', checkForConnection (fuel + 1) (q :: rest) = .ok (c.connId, q') := by
  refine ⟨?_, ?_, ?_, checkForConnection_error_iff, ?_⟩
  · intro c hf
    obtain ⟨l1, l2, hl, hl1, hc, hm⟩ := find?_idle_split p.now hf
    refine ⟨l1, l2, hl, hl1, hc, ?_⟩
    rw [acquire_find_some hf, hm]
  · intro hf hlt
    refine ⟨_, acquire_find_none_lt hf hlt, ?_, ?_, ?_, ?_⟩ <;>
      simp [createConnection]
  · intro hf hge
    exact acquire_find_none_ge hf hge
  · intro fuel q rest c hf
    refine ⟨updateMetrics
      { q with
        connections := markFirstIdle q.now q.connections,
        metrics := { q.metrics with poolHits := q.metrics.poolHits + 1 } }, ?_⟩
    rw [checkForConnection_cons, hf]

/-- Witness for C5 at a one-record pool holding an idle connected record
(case 1). -/
theorem acquire_spec_witness :
    ((⟨[⟨1, true, false, 0, 0, 0⟩], ⟨0, 1, 1, 0, 0, 0⟩, 2, 7⟩ :
        PoolState).connections.find? isIdleConnected = some ⟨1, true, false, 0, 0, 0⟩)
    ∧ ∃ l1 l2,
        [(⟨1, true, false, 0, 0, 0⟩ : PooledConnection)]
            = l1 ++ ⟨1, true, false, 0, 0, 0⟩ :: l2
        ∧ (∀ x ∈ l1, isIdleConnected x = false)
        ∧ isIdleConnected ⟨1, true, false, 0, 0, 0⟩ = true
        ∧ acquire ⟨[⟨1, true, false, 0, 0, 0⟩], ⟨0, 1, 1, 0, 0, 0⟩, 2, 7⟩ 9
          = .hit 1 (updateMetrics
              ⟨l1 ++ ⟨1, true, true, 0, 7, 0⟩ :: l2, ⟨0, 1, 1, 1, 0, 0⟩, 2, 7⟩) :=
  ⟨rfl,
   (acquire_spec ⟨[⟨1, true, false, 0, 0, 0⟩], ⟨0, 1, 1, 0, 0, 0⟩, 2, 7⟩ 9).1
     ⟨1, true, false, 0, 0, 0⟩ rfl⟩

/-- Claim C10: `release(c)` is a silent no-op when no pooled record wraps
`c` (list, records, and all metrics untouched); when a record wraps `c`
(the first such record — unique when exactly one does), only that record's
`inUse` flag and last-used timestamp change, every other record is kept
verbatim in place, and the hit/miss/created/health-failure counters, pool
size and clock are unchanged. -/
theorem release_spec (p : PoolState) (i : Nat) :
    ((∀ c ∈ p.connections, c.connId ≠ i) → release p i = p)
    ∧ ∀ l1 c l2, p.connections = l1 ++ c :: l2 → c.connId = i →
        (∀ x ∈ l1, x.connId ≠ i) →
        (release p i).connections
            = l1 ++ { c with inUse := false, lastUsed := p.now } :: l2
        ∧ (release p i).metrics.poolHits = p.metrics.poolHits
        ∧ (release p i).metrics.poolMisses = p.metrics.poolMisses
        ∧ (release p i).metrics.totalCreated = p.metrics.totalCreated
        ∧ (release p i).metrics.healthCheckFailures = p.metrics.healthCheckFailures
        ∧ (release p i).poolSize = p.poolSize
        ∧ (release p i).now = p.now := by
  constructor
  · intro h
    unfold release
    rw [(releaseFirst_none_iff p.now i p.connections).mpr h]
  · intro l1 c l2 hl hc hl1
    have hr : releaseFirst p.now i p.connections
        = some (l1 ++ { c with inUse := false, lastUsed := p.now } :: l2) := by
      rw [hl]; exact releaseFirst_split p.now i l1 c l2 hc hl1
    unfold release
    rw [hr]
    exact ⟨rfl, rfl, rfl, rfl, rfl, rfl, rfl⟩

/-- Witness for C10: both branches at a one-record pool. -/
theorem release_spec_witness :
    ((∀ c ∈ (⟨[⟨1, true, true, 0, 0, 0⟩], ⟨1, 0, 1, 0, 0, 0⟩, 2, 7⟩ :
        PoolState).connections, c.connId ≠ 5) ∧
      release ⟨[⟨1, true, true, 0, 0, 0⟩], ⟨1, 0, 1, 0, 0, 0⟩, 2, 7⟩ 5
        = ⟨[⟨1, true, true, 0, 0, 0⟩], ⟨1, 0, 1, 0, 0, 0⟩, 2, 7⟩)
    ∧ (release ⟨[⟨1, true, true, 0, 0, 0⟩], ⟨1, 0, 1, 0, 0, 0⟩, 2, 7⟩ 1).connections
        = [] ++ ⟨1, true, false, 0, 7, 0⟩ :: [] :=
  ⟨⟨by decide,
    (release_spec ⟨[⟨1, true, true, 0, 0, 0⟩], ⟨1, 0, 1, 0, 0, 0⟩, 2, 7⟩ 5).1 (by decide)⟩,
   ((release_spec ⟨[⟨1, true, true, 0, 0, 0⟩], ⟨1, 0, 1, 0, 0, 0⟩, 2, 7⟩ 1).2
     [] ⟨1, true, true, 0, 0, 0⟩ [] rfl rfl (by decide)).1⟩

end CrabCache

namespace CrabCache

/-- Claim C6: the recurring health check probes only records that are not
in-use (in-use records are untouched); a failed probe (disconnected record
or failed PING) increments the record's consecutive-failure counter and
the pool-wide counter, a successful probe resets the record's counter; a
record whose counter exceeds 3 after a failed probe is removed, and a
connection identity absent from the pool is never handed out by any
subsequent `acquire()` (or any other pool operation) as long as newly
created connections are fresh. -/
theorem health_check_spec (probeOk : Nat → Bool) (p : PoolState) :
    (∀ c ∈ p.connections, c.inUse = true →
        c ∈ (performHealthCheck probeOk p).connections)
    ∧ (∀ c ∈ p.connections, c.inUse = false → c.connected = true →
        probeOk c.connId = true →
        { c with healthCheckFailures := 0 } ∈ (performHealthCheck probeOk p).connections)
    ∧ ((performHealthCheck probeOk p).metrics.healthCheckFailures
        = p.metrics.healthCheckFailures
          + (p.connections.filter fun c => !c.inUse && probeFails probeOk c).length)
    ∧ (∀ c ∈ p.connections, c.inUse = false → probeFails probeOk c = true →
        c.healthCheckFailures + 1 ≤ 3 →
        { c with healthCheckFailures := c.healthCheckFailures + 1 }
          ∈ (performHealthCheck probeOk p).connections)
    ∧ (∀ c ∈ p.connections, c.inUse = false → probeFails probeOk c = true →
        3 < c.healthCheckFailures + 1 → (p.connections.map (·.connId)).Nodup →
        c.connId ∉ (performHealthCheck probeOk p).connections.map (·.connId))
    ∧ ∀ (q : PoolState) (x : Nat) (ops : List PoolOp) (op : PoolOp),
        x ∉ poolIds q → (∀ o ∈ ops, x ∉ opNewIds o) → x ∉ opNewIds op →
        returnedBy (runOps q ops) op ≠ some x := by
  refine ⟨?_, ?_, rfl, ?_, ?_, ?_⟩
  · intro c hc hu
    show c ∈ p.connections.filterMap (probeRecord probeOk)
    exact List.mem_filterMap.mpr ⟨c, hc, by simp [probeRecord, hu]⟩
  · intro c hc hu hcon hok
    show _ ∈ p.connections.filterMap (probeRecord probeOk)
    exact List.mem_filterMap.mpr ⟨c, hc, by simp [probeRecord, hu, hcon, hok]⟩
  · intro c hc hu hfail hle
    show _ ∈ p.connections.filterMap (probeRecord probeOk)
    refine List.mem_filterMap.mpr ⟨c, hc, ?_⟩
    have hns : (c.connected && probeOk c.connId) = false := by
      unfold probeFails at hfail
      rwa [Bool.not_eq_true'] at hfail
    simp [probeRecord, hu, hns]
    omega
  · intro c hc hu hfail hgt hnd
    intro hmem
    have hsub : (performHealthCheck probeOk p).connections
        = p.connections.filterMap (probeRecord probeOk) := rfl
    rw [hsub] at hmem
    obtain ⟨c', hc', hcid⟩ := List.mem_map.mp hmem
    obtain ⟨a, ha, hpa⟩ := List.mem_filterMap.mp hc'
    have haid : a.connId = c.connId := by
      rw [← probeRecord_connId probeOk a c' hpa, hcid]
    have hac : a = c := List.inj_on_of_nodup_map hnd ha hc haid
    subst hac
    have hns : (a.connected && probeOk a.connId) = false := by
      unfold probeFails at hfail
      rwa [Bool.not_eq_true'] at hfail
    rw [probeRecord, if_neg (by simp [hu]), hns] at hpa
    simp only [Bool.false_eq_true, if_false, if_pos hgt] at hpa
    exact absurd hpa (by simp)
  · intro q x ops op h1 h2 h3
    exact (applyOp_fresh (runOps q ops) op x (runOps_fresh ops q x h1 h2) h3).2

/-- Witness for C6: one idle disconnected record at the threshold is
evicted; one in-use record survives untouched. -/
theorem health_check_spec_witness :
    ((⟨5, false, false, 0, 0, 3⟩ : PooledConnection) ∈
        (⟨[⟨5, false, false, 0, 0, 3⟩, ⟨6, true, true, 0, 0, 0⟩],
          ⟨1, 1, 2, 0, 0, 0⟩, 4, 9⟩ : PoolState).connections
      ∧ (⟨5, false, false, 0, 0, 3⟩ : PooledConnection).inUse = false
      ∧ probeFails (fun _ => true) ⟨5, false, false, 0, 0, 3⟩ = true
      ∧ 3 < (⟨5, false, false, 0, 0, 3⟩ : PooledConnection).healthCheckFailures + 1
      ∧ ((⟨[⟨5, false, false, 0, 0, 3⟩, ⟨6, true, true, 0, 0, 0⟩],
          ⟨1, 1, 2, 0, 0, 0⟩, 4, 9⟩ : PoolState).connections.map (·.connId)).Nodup)
    ∧ (⟨5, false, false, 0, 0, 3⟩ : PooledConnection).connId ∉
        (performHealthCheck (fun _ => true)
          ⟨[⟨5, false, false, 0, 0, 3⟩, ⟨6, true, true, 0, 0, 0⟩],
            ⟨1, 1, 2, 0, 0, 0⟩, 4, 9⟩).connections.map (·.connId)
    ∧ (⟨6, true, true, 0, 0, 0⟩ : PooledConnection) ∈
        (performHealthCheck (fun _ => true)
          ⟨[⟨5, false, false, 0, 0, 3⟩, ⟨6, true, true, 0, 0, 0⟩],
            ⟨1, 1, 2, 0, 0, 0⟩, 4, 9⟩).connections :=
  ⟨by decide,
   (health_check_spec (fun _ => true)
      ⟨[⟨5, false, false, 0, 0, 3⟩, ⟨6, true, true, 0, 0, 0⟩],
        ⟨1, 1, 2, 0, 0, 0⟩, 4, 9⟩).2.2.2.2.1
     ⟨5, false, false, 0, 0, 3⟩ (by decide) (by decide) (by decide) (by decide) (by decide),
   (health_check_spec (fun _ => true)
      ⟨[⟨5, false, false, 0, 0, 3⟩, ⟨6, true, true, 0, 0, 0⟩],
        ⟨1, 1, 2, 0, 0, 0⟩, 4, 9⟩).1
     ⟨6, true, true, 0, 0, 0⟩ (by decide) (by decide)⟩

end CrabCache

namespace CrabCache

theorem warmStep_spec (q : PoolState) (i : Nat)
    (hfresh : ∀ c ∈ q.connections, c.connId ≠ i) :
    (release (createConnection q i) i).connections
        = q.connections ++ [⟨i, true, false, q.now, q.now, 0⟩]
    ∧ (release (createConnection q i) i).metrics.totalCreated
        = q.metrics.totalCreated + 1
    ∧ (release (createConnection q i) i).metrics.poolHits = q.metrics.poolHits
    ∧ (release (createConnection q i) i).metrics.poolMisses = q.metrics.poolMisses
    ∧ (release (createConnection q i) i).now = q.now
    ∧ (release (createConnection q i) i).poolSize = q.poolSize := by
  have hr : releaseFirst (createConnection q i).now i (createConnection q i).connections
      = some (q.connections ++ [⟨i, true, false, q.now, q.now, 0⟩]) := by
    rw [createConnection_connections]
    exact releaseFirst_append_fresh _ i q.connections _ rfl hfresh
  unfold release
  rw [hr]
  exact ⟨rfl, rfl, rfl, rfl, rfl, rfl⟩

theorem warm_fold_spec (l : List Nat) : ∀ (q : PoolState),
    (∀ i ∈ l, ∀ c ∈ q.connections, c.connId ≠ i) → l.Nodup →
    ((l.foldl (fun q i => release (createConnection q i) i) q).connections
        = q.connections ++ (l.map fun i =>
            { connId := i, connected := true, inUse := false,
              createdAt := q.now, lastUsed := q.now, healthCheckFailures := 0 })
      ∧ (l.foldl (fun q i => release (createConnection q i) i) q).metrics.totalCreated
          = q.metrics.totalCreated + l.length
      ∧ (l.foldl (fun q i => release (createConnection q i) i) q).metrics.poolHits
          = q.metrics.poolHits
      ∧ (l.foldl (fun q i => release (createConnection q i) i) q).metrics.poolMisses
          = q.metrics.poolMisses
      ∧ (l.foldl (fun q i => release (createConnection q i) i) q).now = q.now
      ∧ (l.foldl (fun q i => release (createConnection q i) i) q).poolSize
          = q.poolSize) := by
  induction l with
  | nil => intro q _ _; simp
  | cons i is ih =>
    intro q hfresh hnd
    have hstep := warmStep_spec q i fun c hc => hfresh i (List.mem_cons_self i is) c hc
    obtain ⟨hs1, hs2, hs3, hs4, hs5, hs6⟩ := hstep
    have hfresh' : ∀ j ∈ is, ∀ c ∈ (release (createConnection q i) i).connections,
        c.connId ≠ j := by
      intro j hj c hc
      rw [hs1] at hc
      rcases List.mem_append.mp hc with hc | hc
      · exact hfresh j (List.mem_cons_of_mem i hj) c hc
      · have : c = ⟨i, true, false, q.now, q.now, 0⟩ := by simpa using hc
        subst this
        show i ≠ j
        intro hij
        exact (List.nodup_cons.mp hnd).1 (hij ▸ hj)
    have hih := ih (release (createConnection q i) i) hfresh'
      (List.nodup_cons.mp hnd).2
    obtain ⟨hi1, hi2, hi3, hi4, hi5, hi6⟩ := hih
    simp only [List.foldl_cons]
    rw [hi1, hi2, hi3, hi4, hi5, hi6, hs1, hs2, hs3, hs4, hs5, hs6]
    refine ⟨?_, ?_, rfl, rfl, rfl, rfl⟩
    · simp [List.append_assoc]
    · simp only [List.length_cons]
      omega

/-- Marking the first idle-connected record in-use removes exactly one
record from the idle-connected set. -/
theorem markFirstIdle_filter_length (now : Nat) : ∀ (l : List PooledConnection),
    0 < (l.filter isIdleConnected).length →
    ((markFirstIdle now l).filter isIdleConnected).length + 1
      = (l.filter isIdleConnected).length := by
  intro l
  induction l with
  | nil => intro h; simp at h
  | cons a cs ih =>
    intro h
    by_cases ha : isIdleConnected a = true
    · have ha' : isIdleConnected { a with inUse := true, lastUsed := now } = false := by
        simp [isIdleConnected]
      simp [markFirstIdle, ha, List.filter_cons, ha']
    · have ha' : isIdleConnected a = false := by
        cases hb : isIdleConnected a
        · rfl
        · exact absurd hb ha
      rw [markFirstIdle, if_neg ha]
      rw [List.filter_cons, List.filter_cons]
      simp only [ha', Bool.false_eq_true, if_false]
      apply ih
      rw [List.filter_cons, ha'] at h
      simpa using h

theorem filter_pos_find?_isSome {l : List PooledConnection}
    (h : 0 < (l.filter isIdleConnected).length) :
    ∃ c, l.find? isIdleConnected = some c := by
  have hne : l.filter isIdleConnected ≠ [] := by
    intro hc
    rw [hc] at h
    simp at h
  obtain ⟨x, hx⟩ := List.exists_mem_of_ne_nil _ hne
  have hm := List.mem_filter.mp hx
  have hs : (l.find? isIdleConnected).isSome :=
    List.find?_isSome.mpr ⟨x, hm.1, hm.2⟩
  exact Option.isSome_iff_exists.mp hs

/-- Every `acquire` in a back-to-back sequence is a pool **hit**: it
returns an existing connection, increments the pool-hit counter and leaves
the pool-miss and creation counters untouched (`newIds` are the identities
`createConnection` would have used — unused, since nothing is created). -/
def acquireAllHits : PoolState → List Nat → Prop
  | _, [] => True
  | p, newId :: rest =>
    ∃ i q, acquire p newId = .hit i q
      ∧ q.metrics.poolHits = p.metrics.poolHits + 1
      ∧ q.metrics.poolMisses = p.metrics.poolMisses
      ∧ q.metrics.totalCreated = p.metrics.totalCreated
      ∧ acquireAllHits q rest

/-- As long as the pool holds at least as many idle connected records as
there are acquires, every acquire in the sequence is a pool hit. -/
theorem acquire_hits_of_idle (ids : List Nat) : ∀ (p : PoolState),
    ids.length ≤ (p.connections.filter isIdleConnected).length →
    acquireAllHits p ids := by
  induction ids with
  | nil => intro p _; exact trivial
  | cons newId rest ih =>
    intro p hlen
    have hpos : 0 < (p.connections.filter isIdleConnected).length := by
      simp only [List.length_cons] at hlen
      omega
    obtain ⟨c, hf⟩ := filter_pos_find?_isSome hpos
    refine ⟨c.connId, _, acquire_find_some hf, rfl, rfl, rfl, ?_⟩
    apply ih
    have hm := markFirstIdle_filter_length p.now p.connections hpos
    simp only [updateMetrics_connections]
    simp only [List.length_cons] at hlen
    omega

/-- Claim C7 as stated is false at a concrete input: pool of capacity 10
with E = 1 existing record; `warmUp(2)` creates `min(2, 10) − 1 = 1` new
connection, reaching a total of `min(2, 10) = 2` — not `min(2, 10) = 2`
new connections beyond the existing one (which would give 3 records and
3 creations). -/
theorem warmUp_counterexample :
    (warmUp ⟨[⟨1, true, true, 0, 0, 0⟩], ⟨1, 0, 1, 0, 0, 0⟩, 10, 7⟩
        2 [7, 8]).connections.length = 2
    ∧ (warmUp ⟨[⟨1, true, true, 0, 0, 0⟩], ⟨1, 0, 1, 0, 0, 0⟩, 10, 7⟩
        2 [7, 8]).metrics.totalCreated = 2
    ∧ ¬ ((warmUp ⟨[⟨1, true, true, 0, 0, 0⟩], ⟨1, 0, 1, 0, 0, 0⟩, 10, 7⟩
        2 [7, 8]).connections.length = 1 + 2) := by decide

/-- Claim C7 (amended): with E existing records, `warmUp(n)` creates
`min(n, poolSize) − E` new connections (computed once, clamped at zero),
bringing the pool to `min(n, poolSize)` records; each newly created
connection is immediately released (present, connected, not in-use, both
timestamps stamped) and the hit/miss counters are untouched, so subsequent
`acquire()` calls up to that count are all pool hits rather than misses
(each returns an existing connection, incrementing `poolHits` and leaving
`poolMisses`/`totalCreated` unchanged); when `min(n, poolSize) ≤ E` the
call is a no-op. -/
theorem warmUp_spec (p : PoolState) (n : Nat) (newIds : List Nat)
    (hfresh : ∀ i ∈ newIds, ∀ c ∈ p.connections, c.connId ≠ i)
    (hnd : newIds.Nodup)
    (hlen : min n p.poolSize - p.connections.length ≤ newIds.length) :
    (min n p.poolSize ≤ p.connections.length → warmUp p n newIds = p)
    ∧ (p.connections.length < min n p.poolSize →
        (warmUp p n newIds).connections
          = p.connections ++
            ((newIds.take (min n p.poolSize - p.connections.length)).map fun i =>
              { connId := i, connected := true, inUse := false,
                createdAt := p.now, lastUsed := p.now, healthCheckFailures := 0 })
        ∧ (warmUp p n newIds).connections.length = min n p.poolSize
        ∧ (warmUp p n newIds).metrics.totalCreated
            = p.metrics.totalCreated + (min n p.poolSize - p.connections.length)
        ∧ (warmUp p n newIds).metrics.poolHits = p.metrics.poolHits
        ∧ (warmUp p n newIds).metrics.poolMisses = p.metrics.poolMisses
        ∧ ∀ newIds2 : List Nat,
            newIds2.length ≤ min n p.poolSize - p.connections.length →
            acquireAllHits (warmUp p n newIds) newIds2) := by
  constructor
  · intro hle
    unfold warmUp
    rw [if_pos (by omega)]
  · intro hlt
    have hk : min n p.poolSize - p.connections.length ≠ 0 := by omega
    have hwu : warmUp p n newIds
        = (newIds.take (min n p.poolSize - p.connections.length)).foldl
            (fun q i => release (createConnection q i) i) p := by
      unfold warmUp
      rw [if_neg hk]
    have hfold := warm_fold_spec
      (newIds.take (min n p.poolSize - p.connections.length)) p
      (fun i hi c hc => hfresh i (List.mem_of_mem_take hi) c hc)
      (hnd.sublist (List.take_sublist _ _))
    obtain ⟨hf1, hf2, hf3, hf4, hf5, hf6⟩ := hfold
    have htl : (newIds.take (min n p.poolSize - p.connections.length)).length
        = min n p.poolSize - p.connections.length := by
      rw [List.length_take]
      omega
    rw [hwu]
    refine ⟨hf1, ?_, by rw [hf2, htl], hf3, hf4, ?_⟩
    · rw [hf1]
      simp [htl]
      omega
    · intro newIds2 hlen2
      apply acquire_hits_of_idle
      rw [hf1, List.filter_append, List.length_append]
      have hall : (((newIds.take (min n p.poolSize - p.connections.length)).map fun i =>
          ({ connId := i, connected := true, inUse := false,
             createdAt := p.now, lastUsed := p.now,
             healthCheckFailures := 0 } : PooledConnection)).filter isIdleConnected)
          = ((newIds.take (min n p.poolSize - p.connections.length)).map fun i =>
            ({ connId := i, connected := true, inUse := false,
               createdAt := p.now, lastUsed := p.now,
               healthCheckFailures := 0 } : PooledConnection)) := by
        apply List.filter_eq_self.mpr
        intro x hx
        obtain ⟨i, _, rfl⟩ := List.mem_map.mp hx
        rfl
      rw [hall, List.length_map, htl]
      omega

/-- Witness for C7 (amended) at a one-record pool of capacity 10,
`warmUp(2)` with fresh identities 7 and 8. -/
theorem warmUp_spec_witness :
    ((∀ i ∈ [7, 8], ∀ c ∈ (⟨[⟨1, true, true, 0, 0, 0⟩], ⟨1, 0, 1, 0, 0, 0⟩, 10, 7⟩ :
          PoolState).connections, c.connId ≠ i)
      ∧ ([7, 8] : List Nat).Nodup
      ∧ min 2 10 - 1 ≤ ([7, 8] : List Nat).length)
    ∧ ((min 2 10 ≤ 1 →
        warmUp ⟨[⟨1, true, true, 0, 0, 0⟩], ⟨1, 0, 1, 0, 0, 0⟩, 10, 7⟩ 2 [7, 8]
          = ⟨[⟨1, true, true, 0, 0, 0⟩], ⟨1, 0, 1, 0, 0, 0⟩, 10, 7⟩)
    ∧ (1 < min 2 10 →
        (warmUp ⟨[⟨1, true, true, 0, 0, 0⟩], ⟨1, 0, 1, 0, 0, 0⟩, 10, 7⟩
            2 [7, 8]).connections
          = [⟨1, true, true, 0, 0, 0⟩] ++ [⟨7, true, false, 7, 7, 0⟩]
        ∧ (warmUp ⟨[⟨1, true, true, 0, 0, 0⟩], ⟨1, 0, 1, 0, 0, 0⟩, 10, 7⟩
            2 [7, 8]).connections.length = min 2 10
        ∧ (warmUp ⟨[⟨1, true, true, 0, 0, 0⟩], ⟨1, 0, 1, 0, 0, 0⟩, 10, 7⟩
            2 [7, 8]).metrics.totalCreated = 1 + 1
        ∧ (warmUp ⟨[⟨1, true, true, 0, 0, 0⟩], ⟨1, 0, 1, 0, 0, 0⟩, 10, 7⟩
            2 [7, 8]).metrics.poolHits = 0
        ∧ (warmUp ⟨[⟨1, true, true, 0, 0, 0⟩], ⟨1, 0, 1, 0, 0, 0⟩, 10, 7⟩
            2 [7, 8]).metrics.poolMisses = 0
        ∧ ∀ newIds2 : List Nat, newIds2.length ≤ min 2 10 - 1 →
            acquireAllHits
              (warmUp ⟨[⟨1, true, true, 0, 0, 0⟩], ⟨1, 0, 1, 0, 0, 0⟩, 10, 7⟩ 2 [7, 8])
              newIds2)) :=
  ⟨⟨by decide, by decide, by decide⟩,
   warmUp_spec ⟨[⟨1, true, true, 0, 0, 0⟩], ⟨1, 0, 1, 0, 0, 0⟩, 10, 7⟩ 2 [7, 8]
     (by decide) (by decide) (by decide)⟩

end CrabCache

namespace CrabCache

/-! ## Wire protocol (`protocol.ts`)

`Buffer`/string contents are byte lists; `Buffer.toString()` over the
protocol's ASCII text is modelled by `strBytes`/byte-level operations.
`JSON.parse` of a STATS payload is abstracted away: both the parse-success
and parse-failure branch yield a `{type: 'stats', data: …}` value, so the
decoded payload is carried verbatim. -/

def strBytes (s : String) : List Nat := s.data.map Char.toNat

def natBytes (n : Nat) : List Nat := strBytes (toString n)

/-- `encodeVarint`'s while loop, with fuel (the loop runs at most once per
7 bits, so fuel `n` is always sufficient for input `n`). -/
def encodeVarintAux : Nat → Nat → List Nat
  | 0, n => [n &&& 0xFF]
  | fuel + 1, n =>
    if 0x80 ≤ n then ((n &&& 0xFF) ||| 0x80) :: encodeVarintAux fuel (n >>> 7)
    else [n &&& 0xFF]

def encodeVarint (n : Nat) : List Nat := encodeVarintAux n n

/-- `writeBigUInt64LE` of a `Nat` (8 little-endian bytes). -/
def writeBigUInt64LE (n : Nat) : List Nat :=
  (List.range 8).map fun i => (n >>> (8 * i)) &&& 0xFF

/-- The commands a `CrabCachePipeline` builder can accumulate, with the
argument shapes the builder methods (`ping`/`put`/`get`/`del`/`expire`/
`stats`/`serverMetrics`) produce. -/
inductive PCommand where
  | ping
  | put (key value : List Nat) (ttl : Option Nat)
  | get (key : List Nat)
  | del (key : List Nat)
  | expire (key : List Nat) (ttl : Nat)
  | stats
  | metrics
deriving DecidableEq, Repr

def cmdName : PCommand → String
  | .ping => "PING"
  | .put .. => "PUT"
  | .get _ => "GET"
  | .del _ => "DEL"
  | .expire .. => "EXPIRE"
  | .stats => "STATS"
  | .metrics => "METRICS"

def cmdArgs : PCommand → List (List Nat)
  | .ping => []
  | .put k v none => [k, v]
  | .put k v (some t) => [k, v, natBytes t]
  | .get k => [k]
  | .del k => [k]
  | .expire k t => [k, natBytes t]
  | .stats => []
  | .metrics => []

/-- `encodeTextCommand`: space-join command and arguments, append CR LF. -/
def encodeTextCommand (command : List Nat) (args : List (List Nat)) : List Nat :=
  (List.intercalate [32] (command :: args)) ++ [13, 10]

def encodeText (c : PCommand) : List Nat :=
  encodeTextCommand (strBytes (cmdName c)) (cmdArgs c)

/-- `encodeBinaryCommand` for the builder-produced command shapes
(tags 0x01–0x07, varint-prefixed keys/values, TTL-presence flag byte,
8-byte little-endian TTL). -/
def encodeBinary : PCommand → List Nat
  | .ping => [0x01]
  | .put k v ttl =>
    [0x02] ++ encodeVarint k.length ++ k ++ encodeVarint v.length ++ v ++
      (match ttl with
       | some t => [1] ++ writeBigUInt64LE t
       | none => [0])
  | .get k => [0x03] ++ encodeVarint k.length ++ k
  | .del k => [0x04] ++ encodeVarint k.length ++ k
  | .expire k t => [0x05] ++ encodeVarint k.length ++ k ++ writeBigUInt64LE t
  | .stats => [0x06]
  | .metrics => [0x07]

/-- JS `String.prototype.trim` whitespace, restricted to the ASCII range. -/
def isWs (b : Nat) : Bool := b = 32 || b = 9 || b = 10 || b = 13 || b = 11 || b = 12

def trimBytes (l : List Nat) : List Nat :=
  ((l.dropWhile isWs).reverse.dropWhile isWs).reverse

/-- A decoded response object (`{type: ...}`). -/
inductive Decoded where
  | okResp
  | pongResp
  | nullResp
  | errResp (msg : List Nat)
  | statsResp (data : List Nat)
  | valueResp (data : List Nat)
deriving DecidableEq, Repr

/-- `decodeTextResponse`: trim, compare against the literal responses,
then the `ERROR:`/`STATS:` prefixes, else treat as a bare value. -/
def decodeTextResponse (data : List Nat) : Decoded :=
  let response := trimBytes data
  if response = strBytes "OK" then .okResp
  else if response = strBytes "PONG" then .pongResp
  else if response = strBytes "NULL" then .nullResp
  else if (strBytes "ERROR:").isPrefixOf response then
    .errResp (trimBytes (response.drop 6))
  else if (strBytes "STATS:").isPrefixOf response then
    .statsResp (trimBytes (response.drop 6))
  else .valueResp response

/-- `decodeVarint`'s loop.  JS `|=` coerces to a 32-bit integer; the
magnitude truncation is modelled by `% 2^32`.  The `shift >= 32` guard
throws `Varint too long`; a buffer that ends mid-varint falls off the loop
returning the bytes read so far. -/
def decodeVarintAux : List Nat → Nat → Nat → Nat → Except String (Nat × Nat)
  | [], result, _, bytesRead => .ok (result, bytesRead)
  | b :: rest, result, shift, bytesRead =>
    let result' := (result ||| ((b &&& 0x7F) <<< shift)) % 4294967296
    if b &&& 0x80 = 0 then .ok (result', bytesRead + 1)
    else if 32 ≤ shift + 7 then .error "Varint too long"
    else decodeVarintAux rest result' (shift + 7) (bytesRead + 1)

def decodeVarint (data : List Nat) : Except String (Nat × Nat) :=
  decodeVarintAux data 0 0 0

/-- `decodeBinaryResponse`: throws on an empty buffer and on an unknown
tag; ERROR/VALUE/STATS payloads are varint-length-prefixed
(`data.slice(cursor, cursor + len)`). -/
def decodeBinaryResponse (data : List Nat) : Except String Decoded :=
  if data.length = 0 then .error "Empty binary response"
  else
    let t := data.headD 0
    if t = 0x10 then .ok .okResp
    else if t = 0x11 then .ok .pongResp
    else if t = 0x12 then .ok .nullResp
    else if t = 0x13 then
      match decodeVarint (data.drop 1) with
      | .error e => .error e
      | .ok (len, lenBytes) => .ok (.errResp ((data.drop (1 + lenBytes)).take len))
    else if t = 0x14 then
      match decodeVarint (data.drop 1) with
      | .error e => .error e
      | .ok (len, lenBytes) => .ok (.valueResp ((data.drop (1 + lenBytes)).take len))
    else if t = 0x15 then
      match decodeVarint (data.drop 1) with
      | .error e => .error e
      | .ok (len, lenBytes) => .ok (.statsResp ((data.drop (1 + lenBytes)).take len))
    else .error "Unknown binary response type"

/-! ## Pipeline executor (`pipeline.ts`, `CrabCachePipeline`) -/

/-- The value slot of a `PipelineResponse` (`'OK'`/`'PONG'` strings,
`null`, or payload bytes). -/
inductive PValue where
  | bytesV (b : List Nat)
  | nullV
deriving DecidableEq, Repr

structure PipelineResponse where
  success : Bool
  value : Option PValue
  error : Option (List Nat)
deriving DecidableEq, Repr

/-- `convertToResponse`: every decoded type except `error` becomes a
per-item success. -/
def convertToResponse : Decoded → PipelineResponse
  | .okResp => ⟨true, some (.bytesV (strBytes "OK")), none⟩
  | .pongResp => ⟨true, some (.bytesV (strBytes "PONG")), none⟩
  | .nullResp => ⟨true, some .nullV, none⟩
  | .valueResp d => ⟨true, some (.bytesV d), none⟩
  | .statsResp d => ⟨true, some (.bytesV d), none⟩
  | .errResp m => ⟨false, none, some m⟩

/-- The per-response `try { decode; convert } catch { per-item failure }`
of `execute`'s decoding loop (text decoding never throws). -/
def decodeItem (useBinary : Bool) (raw : List Nat) : PipelineResponse :=
  if useBinary then
    match decodeBinaryResponse raw with
    | .ok d => convertToResponse d
    | .error e => ⟨false, none, some (strBytes e)⟩
  else convertToResponse (decodeTextResponse raw)

structure PipelineState where
  commands : List PCommand
  useBinaryProtocol : Bool
deriving DecidableEq, Repr

def encodedCommands (p : PipelineState) : List (List Nat) :=
  p.commands.map fun c => if p.useBinaryProtocol then encodeBinary c else encodeText c

/-- `execute()`: empty list → empty result without touching the network;
otherwise encode everything, hand the blobs to `sendPipelineCommands`
(modelled by `net`), decode each raw response independently, and clear the
command list on both the success and the thrown path.  Returns (executor
state after, blobs written if any, result). -/
def execute (p : PipelineState)
    (net : List (List Nat) → Except String (List (List Nat))) :
    PipelineState × Option (List (List Nat)) × Except String (List PipelineResponse) :=
  if p.commands.isEmpty then (p, none, .ok [])
  else
    match net (encodedCommands p) with
    | .error e => ({ p with commands := [] }, some (encodedCommands p), .error e)
    | .ok responses =>
      ({ p with commands := [] }, some (encodedCommands p),
        .ok (responses.map (decodeItem p.useBinaryProtocol)))

/-- Claim C8: `execute()` on an empty command list returns an empty result
without sending anything; with N commands sent and N raw responses
received, each slot is decoded independently (`results = map decodeItem
responses`, so slot i depends only on response i, and a decode failure in
slot i leaves the sibling slots and the batch's overall success intact);
and the command list is cleared both when `execute` returns results and
when it rethrows the transport error. -/
theorem pipeline_execute_spec (p : PipelineState)
    (net : List (List Nat) → Except String (List (List Nat))) :
    (p.commands = [] → execute p net = (p, none, .ok []))
    ∧ (∀ e, p.commands ≠ [] → net (encodedCommands p) = .error e →
        execute p net = ({ p with commands := [] }, some (encodedCommands p), .error e))
    ∧ (∀ responses, p.commands ≠ [] → net (encodedCommands p) = .ok responses →
        execute p net
          = ({ p with commands := [] }, some (encodedCommands p),
             .ok (responses.map (decodeItem p.useBinaryProtocol)))
        ∧ (responses.map (decodeItem p.useBinaryProtocol)).length = responses.length
        ∧ ∀ i : Nat, (responses.map (decodeItem p.useBinaryProtocol)).get? i
            = (responses.get? i).map (decodeItem p.useBinaryProtocol))
    ∧ ∀ raw e, decodeBinaryResponse raw = .error e →
        decodeItem true raw = ⟨false, none, some (strBytes e)⟩ := by
  refine ⟨?_, ?_, ?_, ?_⟩
  · intro h
    unfold execute
    rw [if_pos (by simp [h])]
  · intro e hne hnet
    unfold execute
    rw [if_neg (by simp [hne]), hnet]
  · intro responses hne hnet
    refine ⟨?_, by simp, fun i => by simp [List.get?_map]⟩
    unfold execute
    rw [if_neg (by simp [hne]), hnet]
  · intro raw e h
    unfold decodeItem
    rw [if_pos rfl, h]

/-- Witness for C8: a binary-protocol batch `[PING, GET k]` answered by a
PONG frame and an empty (undecodable) response: slot 0 succeeds, slot 1 is
a per-item failure, the batch resolves, the command list is cleared. -/
theorem pipeline_execute_spec_witness :
    ((⟨[.ping, .get [107]], true⟩ : PipelineState).commands ≠ []
      ∧ (fun _ : List (List Nat) =>
          (.ok [[0x11], []] : Except String (List (List Nat))))
          (encodedCommands ⟨[.ping, .get [107]], true⟩) = .ok [[0x11], []])
    ∧ (execute ⟨[.ping, .get [107]], true⟩ (fun _ => .ok [[0x11], []])
        = (⟨[], true⟩, some (encodedCommands ⟨[.ping, .get [107]], true⟩),
           .ok [⟨true, some (.bytesV (strBytes "PONG")), none⟩,
                ⟨false, none, some (strBytes "Empty binary response")⟩])
      ∧ ([[0x11], ([] : List Nat)].map (decodeItem true)).length
          = [[0x11], ([] : List Nat)].length
      ∧ ∀ i : Nat, ([[0x11], ([] : List Nat)].map (decodeItem true)).get? i
          = ([[0x11], ([] : List Nat)].get? i).map (decodeItem true)) :=
  ⟨⟨by decide, rfl⟩,
   (pipeline_execute_spec ⟨[.ping, .get [107]], true⟩
      (fun _ => .ok [[0x11], []])).2.2.1 [[0x11], []] (by decide) rfl⟩

end CrabCache

namespace CrabCache

/-! ## Cluster-wide STATS aggregation (`client.js`, `getClusterStats`)

One per-node STATS record.  JS numbers are modelled as rationals; the
source field names are snake_case (`total_operations`, `hit_ratio`, …),
rendered in camel case here. -/

structure NodeStats where
  totalOperations : ℚ
  getOperations : ℚ
  putOperations : ℚ
  delOperations : ℚ
  cacheHits : ℚ
  cacheMisses : ℚ
  hitRatio : ℚ
  memoryUsage : ℚ
  activeConnections : ℚ
  uptimeSeconds : ℚ
deriving DecidableEq, Repr

/-- The initial accumulator of the `reduce` (all fields 0). -/
def statsInit : NodeStats := ⟨0, 0, 0, 0, 0, 0, 0, 0, 0, 0⟩

/-- The `reduce` combiner: counters summed, `hit_ratio` replaced by
`(acc.hit_ratio + stats.hit_ratio) / 2` (the line commented `// Average`),
uptime by the running maximum. -/
def combineStats (acc s : NodeStats) : NodeStats :=
  { totalOperations := acc.totalOperations + s.totalOperations,
    getOperations := acc.getOperations + s.getOperations,
    putOperations := acc.putOperations + s.putOperations,
    delOperations := acc.delOperations + s.delOperations,
    cacheHits := acc.cacheHits + s.cacheHits,
    cacheMisses := acc.cacheMisses + s.cacheMisses,
    hitRatio := (acc.hitRatio + s.hitRatio) / 2,
    memoryUsage := acc.memoryUsage + s.memoryUsage,
    activeConnections := acc.activeConnections + s.activeConnections,
    uptimeSeconds := max acc.uptimeSeconds s.uptimeSeconds }

def aggregateStats (nodeStats : List NodeStats) : NodeStats :=
  nodeStats.foldl combineStats statsInit

/-- The cluster-specific fields added to the aggregate.  The
throughput/efficiency/latency fields depend on the client's own metrics
and the wall clock, not on the per-node STATS, and are outside the claims;
the node counts and the fault-tolerance ratio are kept. -/
structure ClusterStats where
  agg : NodeStats
  clusterNodes : Nat
  clusterActiveNodes : Nat
  faultToleranceRate : ℚ
deriving DecidableEq, Repr

def getClusterStats (nodeStats : List NodeStats) (activeCount totalCount : Nat) :
    ClusterStats :=
  { agg := aggregateStats nodeStats,
    clusterNodes := totalCount,
    clusterActiveNodes := activeCount,
    faultToleranceRate := (activeCount : ℚ) / (totalCount : ℚ) }

theorem foldl_max_cases : ∀ (l : List ℚ) (a : ℚ), l.foldl max a = a ∨ l.foldl max a ∈ l := by
  intro l
  induction l with
  | nil => intro a; exact Or.inl rfl
  | cons b tl ih =>
    intro a
    rcases ih (max a b) with h | h
    · rcases max_choice a b with hm | hm
      · exact Or.inl (by rw [List.foldl_cons, h, hm])
      · exact Or.inr (by rw [List.foldl_cons, h, hm]; exact List.mem_cons_self b tl)
    · exact Or.inr (List.mem_cons_of_mem b h)

theorem le_foldl_max : ∀ (l : List ℚ) (a : ℚ),
    a ≤ l.foldl max a ∧ ∀ x ∈ l, x ≤ l.foldl max a := by
  intro l
  induction l with
  | nil => intro a; exact ⟨le_refl a, by simp⟩
  | cons b tl ih =>
    intro a
    have h1 := (ih (max a b)).1
    refine ⟨le_trans (le_max_left a b) h1, ?_⟩
    intro x hx
    rcases List.mem_cons.mp hx with rfl | hx'
    · exact le_trans (le_max_right a x) h1
    · exact (ih (max a b)).2 x hx'

theorem aggregate_fold (l : List NodeStats) : ∀ (acc : NodeStats),
    (l.foldl combineStats acc).totalOperations
        = acc.totalOperations + (l.map (·.totalOperations)).sum
    ∧ (l.foldl combineStats acc).getOperations
        = acc.getOperations + (l.map (·.getOperations)).sum
    ∧ (l.foldl combineStats acc).putOperations
        = acc.putOperations + (l.map (·.putOperations)).sum
    ∧ (l.foldl combineStats acc).delOperations
        = acc.delOperations + (l.map (·.delOperations)).sum
    ∧ (l.foldl combineStats acc).cacheHits
        = acc.cacheHits + (l.map (·.cacheHits)).sum
    ∧ (l.foldl combineStats acc).cacheMisses
        = acc.cacheMisses + (l.map (·.cacheMisses)).sum
    ∧ (l.foldl combineStats acc).memoryUsage
        = acc.memoryUsage + (l.map (·.memoryUsage)).sum
    ∧ (l.foldl combineStats acc).activeConnections
        = acc.activeConnections + (l.map (·.activeConnections)).sum
    ∧ (l.foldl combineStats acc).uptimeSeconds
        = (l.map (·.uptimeSeconds)).foldl max acc.uptimeSeconds
    ∧ (l.foldl combineStats acc).hitRatio
        = acc.hitRatio / 2 ^ l.length
          + ∑ i ∈ Finset.range l.length,
              (l.getD i statsInit).hitRatio / 2 ^ (l.length - i) := by
  induction l with
  | nil => intro acc; simp
  | cons s tl ih =>
    intro acc
    have h := ih (combineStats acc s)
    obtain ⟨h1, h2, h3, h4, h5, h6, h7, h8, h9, h10⟩ := h
    simp only [List.foldl_cons, List.map_cons, List.sum_cons, List.length_cons]
    refine ⟨?_, ?_, ?_, ?_, ?_, ?_, ?_, ?_, ?_, ?_⟩
    · rw [h1]; show acc.totalOperations + s.totalOperations + _ = _; ring
    · rw [h2]; show acc.getOperations + s.getOperations + _ = _; ring
    · rw [h3]; show acc.putOperations + s.putOperations + _ = _; ring
    · rw [h4]; show acc.delOperations + s.delOperations + _ = _; ring
    · rw [h5]; show acc.cacheHits + s.cacheHits + _ = _; ring
    · rw [h6]; show acc.cacheMisses + s.cacheMisses + _ = _; ring
    · rw [h7]; show acc.memoryUsage + s.memoryUsage + _ = _; ring
    · rw [h8]; show acc.activeConnections + s.activeConnections + _ = _; ring
    · rw [h9]; rfl
    · rw [h10]
      have hcomb : (combineStats acc s).hitRatio = (acc.hitRatio + s.hitRatio) / 2 := rfl
      rw [hcomb, Finset.sum_range_succ']
      have hshift : ∀ i, ((s :: tl).getD (i + 1) statsInit).hitRatio
          / 2 ^ (tl.length + 1 - (i + 1))
          = (tl.getD i statsInit).hitRatio / 2 ^ (tl.length - i) := by
        intro i
        rw [Nat.succ_sub_succ]
        simp [List.getD_cons_succ]
      simp only [hshift]
      have h0 : ((s :: tl).getD 0 statsInit).hitRatio / 2 ^ (tl.length + 1 - 0)
          = s.hitRatio / 2 ^ (tl.length + 1) := rfl
      rw [h0]
      have hp : (2 : ℚ) ^ (tl.length + 1) = 2 ^ tl.length * 2 := pow_succ 2 tl.length
      rw [hp]
      ring

/-- Claim C9 as stated is false at a single-node cluster: a node reporting
`hit_ratio = 1` aggregates to `(0 + 1) / 2 = 1/2`, while the arithmetic
mean of the per-node hit ratios is `1` — the `reduce` seeds its running
pairwise average with 0, so the result is not the mean. -/
theorem cluster_hit_ratio_counterexample :
    (aggregateStats [⟨0, 0, 0, 0, 0, 0, 1, 0, 0, 0⟩]).hitRatio = 1 / 2
    ∧ (aggregateStats [⟨0, 0, 0, 0, 0, 0, 1, 0, 0, 0⟩]).hitRatio ≠ 1 := by
  constructor
  · show ((0 : ℚ) + 1) / 2 = 1 / 2
    norm_num
  · show ((0 : ℚ) + 1) / 2 ≠ 1
    norm_num

/-- Claim C9 (amended): the cluster-wide aggregation sums every counter
field (total/get/put/del operations, cache hits and misses, memory usage,
active connections), reduces uptime by the maximum across nodes (with 0 as
the seed), and reduces `hit_ratio` **not** by the arithmetic mean but by
the left fold `r ↦ (r + h) / 2` seeded with 0, whose closed form weights
node i by `1 / 2^(n - i)` (later nodes count more); the result is
augmented with the node counts and the fault-tolerance ratio
`active / total`. -/
theorem cluster_stats_spec (l : List NodeStats) (hl : l ≠ []) (a t : Nat) :
    (aggregateStats l).totalOperations = (l.map (·.totalOperations)).sum
    ∧ (aggregateStats l).getOperations = (l.map (·.getOperations)).sum
    ∧ (aggregateStats l).putOperations = (l.map (·.putOperations)).sum
    ∧ (aggregateStats l).delOperations = (l.map (·.delOperations)).sum
    ∧ (aggregateStats l).cacheHits = (l.map (·.cacheHits)).sum
    ∧ (aggregateStats l).cacheMisses = (l.map (·.cacheMisses)).sum
    ∧ (aggregateStats l).memoryUsage = (l.map (·.memoryUsage)).sum
    ∧ (aggregateStats l).activeConnections = (l.map (·.activeConnections)).sum
    ∧ (∀ s ∈ l, s.uptimeSeconds ≤ (aggregateStats l).uptimeSeconds)
    ∧ ((aggregateStats l).uptimeSeconds = 0
        ∨ ∃ s ∈ l, (aggregateStats l).uptimeSeconds = s.uptimeSeconds)
    ∧ (aggregateStats l).hitRatio
        = ∑ i ∈ Finset.range l.length,
            (l.getD i statsInit).hitRatio / 2 ^ (l.length - i)
    ∧ (getClusterStats l a t).agg = aggregateStats l
    ∧ (getClusterStats l a t).clusterNodes = t
    ∧ (getClusterStats l a t).clusterActiveNodes = a
    ∧ (getClusterStats l a t).faultToleranceRate = (a : ℚ) / (t : ℚ) := by
  have h := aggregate_fold l statsInit
  obtain ⟨h1, h2, h3, h4, h5, h6, h7, h8, h9, h10⟩ := h
  have hz : statsInit.totalOperations = 0 := rfl
  refine ⟨?_, ?_, ?_, ?_, ?_, ?_, ?_, ?_, ?_, ?_, ?_, rfl, rfl, rfl, rfl⟩
  · rw [show aggregateStats l = l.foldl combineStats statsInit from rfl, h1]
    show (0 : ℚ) + _ = _; ring
  · rw [show aggregateStats l = l.foldl combineStats statsInit from rfl, h2]
    show (0 : ℚ) + _ = _; ring
  · rw [show aggregateStats l = l.foldl combineStats statsInit from rfl, h3]
    show (0 : ℚ) + _ = _; ring
  · rw [show aggregateStats l = l.foldl combineStats statsInit from rfl, h4]
    show (0 : ℚ) + _ = _; ring
  · rw [show aggregateStats l = l.foldl combineStats statsInit from rfl, h5]
    show (0 : ℚ) + _ = _; ring
  · rw [show aggregateStats l = l.foldl combineStats statsInit from rfl, h6]
    show (0 : ℚ) + _ = _; ring
  · rw [show aggregateStats l = l.foldl combineStats statsInit from rfl, h7]
    show (0 : ℚ) + _ = _; ring
  · rw [show aggregateStats l = l.foldl combineStats statsInit from rfl, h8]
    show (0 : ℚ) + _ = _; ring
  · intro s hs
    rw [show aggregateStats l = l.foldl combineStats statsInit from rfl, h9]
    exact (le_foldl_max (l.map (·.uptimeSeconds)) statsInit.uptimeSeconds).2
      s.uptimeSeconds (List.mem_map.mpr ⟨s, hs, rfl⟩)
  · rw [show aggregateStats l = l.foldl combineStats statsInit from rfl, h9]
    rcases foldl_max_cases (l.map (·.uptimeSeconds)) statsInit.uptimeSeconds with h | h
    · exact Or.inl h
    · obtain ⟨s, hs, hval⟩ := List.mem_map.mp h
      exact Or.inr ⟨s, hs, hval.symm⟩
  · rw [show aggregateStats l = l.foldl combineStats statsInit from rfl, h10]
    show (0 : ℚ) / 2 ^ l.length + _ = _
    rw [zero_div, zero_add]

/-- Witness for C9 (amended) at a two-node cluster with 1 of 2 nodes
active. -/
theorem cluster_stats_spec_witness :
    ([(⟨2, 1, 1, 0, 3, 1, 1, 10, 1, 100⟩ : NodeStats),
      ⟨4, 2, 2, 0, 1, 3, 1/2, 20, 2, 50⟩] ≠ ([] : List NodeStats))
    ∧ ((aggregateStats [(⟨2, 1, 1, 0, 3, 1, 1, 10, 1, 100⟩ : NodeStats),
          ⟨4, 2, 2, 0, 1, 3, 1/2, 20, 2, 50⟩]).totalOperations
        = ([(⟨2, 1, 1, 0, 3, 1, 1, 10, 1, 100⟩ : NodeStats),
            ⟨4, 2, 2, 0, 1, 3, 1/2, 20, 2, 50⟩].map (·.totalOperations)).sum
    ∧ (aggregateStats [(⟨2, 1, 1, 0, 3, 1, 1, 10, 1, 100⟩ : NodeStats),
          ⟨4, 2, 2, 0, 1, 3, 1/2, 20, 2, 50⟩]).getOperations
        = ([(⟨2, 1, 1, 0, 3, 1, 1, 10, 1, 100⟩ : NodeStats),
            ⟨4, 2, 2, 0, 1, 3, 1/2, 20, 2, 50⟩].map (·.getOperations)).sum
    ∧ (aggregateStats [(⟨2, 1, 1, 0, 3, 1, 1, 10, 1, 100⟩ : NodeStats),
          ⟨4, 2, 2, 0, 1, 3, 1/2, 20, 2, 50⟩]).putOperations
        = ([(⟨2, 1, 1, 0, 3, 1, 1, 10, 1, 100⟩ : NodeStats),
            ⟨4, 2, 2, 0, 1, 3, 1/2, 20, 2, 50⟩].map (·.putOperations)).sum
    ∧ (aggregateStats [(⟨2, 1, 1, 0, 3, 1, 1, 10, 1, 100⟩ : NodeStats),
          ⟨4, 2, 2, 0, 1, 3, 1/2, 20, 2, 50⟩]).delOperations
        = ([(⟨2, 1, 1, 0, 3, 1, 1, 10, 1, 100⟩ : NodeStats),
            ⟨4, 2, 2, 0, 1, 3, 1/2, 20, 2, 50⟩].map (·.delOperations)).sum
    ∧ (aggregateStats [(⟨2, 1, 1, 0, 3, 1, 1, 10, 1, 100⟩ : NodeStats),
          ⟨4, 2, 2, 0, 1, 3, 1/2, 20, 2, 50⟩]).cacheHits
        = ([(⟨2, 1, 1, 0, 3, 1, 1, 10, 1, 100⟩ : NodeStats),
            ⟨4, 2, 2, 0, 1, 3, 1/2, 20, 2, 50⟩].map (·.cacheHits)).sum
    ∧ (aggregateStats [(⟨2, 1, 1, 0, 3, 1, 1, 10, 1, 100⟩ : NodeStats),
          ⟨4, 2, 2, 0, 1, 3, 1/2, 20, 2, 50⟩]).cacheMisses
        = ([(⟨2, 1, 1, 0, 3, 1, 1, 10, 1, 100⟩ : NodeStats),
            ⟨4, 2, 2, 0, 1, 3, 1/2, 20, 2, 50⟩].map (·.cacheMisses)).sum
    ∧ (aggregateStats [(⟨2, 1, 1, 0, 3, 1, 1, 10, 1, 100⟩ : NodeStats),
          ⟨4, 2, 2, 0, 1, 3, 1/2, 20, 2, 50⟩]).memoryUsage
        = ([(⟨2, 1, 1, 0, 3, 1, 1, 10, 1, 100⟩ : NodeStats),
            ⟨4, 2, 2, 0, 1, 3, 1/2, 20, 2, 50⟩].map (·.memoryUsage)).sum
    ∧ (aggregateStats [(⟨2, 1, 1, 0, 3, 1, 1, 10, 1, 100⟩ : NodeStats),
          ⟨4, 2, 2, 0, 1, 3, 1/2, 20, 2, 50⟩]).activeConnections
        = ([(⟨2, 1, 1, 0, 3, 1, 1, 10, 1, 100⟩ : NodeStats),
            ⟨4, 2, 2, 0, 1, 3, 1/2, 20, 2, 50⟩].map (·.activeConnections)).sum
    ∧ (∀ s ∈ [(⟨2, 1, 1, 0, 3, 1, 1, 10, 1, 100⟩ : NodeStats),
          ⟨4, 2, 2, 0, 1, 3, 1/2, 20, 2, 50⟩],
        s.uptimeSeconds ≤ (aggregateStats [(⟨2, 1, 1, 0, 3, 1, 1, 10, 1, 100⟩ : NodeStats),
          ⟨4, 2, 2, 0, 1, 3, 1/2, 20, 2, 50⟩]).uptimeSeconds)
    ∧ ((aggregateStats [(⟨2, 1, 1, 0, 3, 1, 1, 10, 1, 100⟩ : NodeStats),
          ⟨4, 2, 2, 0, 1, 3, 1/2, 20, 2, 50⟩]).uptimeSeconds = 0
        ∨ ∃ s ∈ [(⟨2, 1, 1, 0, 3, 1, 1, 10, 1, 100⟩ : NodeStats),
            ⟨4, 2, 2, 0, 1, 3, 1/2, 20, 2, 50⟩],
          (aggregateStats [(⟨2, 1, 1, 0, 3, 1, 1, 10, 1, 100⟩ : NodeStats),
            ⟨4, 2, 2, 0, 1, 3, 1/2, 20, 2, 50⟩]).uptimeSeconds = s.uptimeSeconds)
    ∧ (aggregateStats [(⟨2, 1, 1, 0, 3, 1, 1, 10, 1, 100⟩ : NodeStats),
          ⟨4, 2, 2, 0, 1, 3, 1/2, 20, 2, 50⟩]).hitRatio
        = ∑ i ∈ Finset.range ([(⟨2, 1, 1, 0, 3, 1, 1, 10, 1, 100⟩ : NodeStats),
            ⟨4, 2, 2, 0, 1, 3, 1/2, 20, 2, 50⟩].length),
            ([(⟨2, 1, 1, 0, 3, 1, 1, 10, 1, 100⟩ : NodeStats),
              ⟨4, 2, 2, 0, 1, 3, 1/2, 20, 2, 50⟩].getD i statsInit).hitRatio
              / 2 ^ ([(⟨2, 1, 1, 0, 3, 1, 1, 10, 1, 100⟩ : NodeStats),
                  ⟨4, 2, 2, 0, 1, 3, 1/2, 20, 2, 50⟩].length - i)
    ∧ (getClusterStats [(⟨2, 1, 1, 0, 3, 1, 1, 10, 1, 100⟩ : NodeStats),
          ⟨4, 2, 2, 0, 1, 3, 1/2, 20, 2, 50⟩] 1 2).agg
        = aggregateStats [(⟨2, 1, 1, 0, 3, 1, 1, 10, 1, 100⟩ : NodeStats),
            ⟨4, 2, 2, 0, 1, 3, 1/2, 20, 2, 50⟩]
    ∧ (getClusterStats [(⟨2, 1, 1, 0, 3, 1, 1, 10, 1, 100⟩ : NodeStats),
          ⟨4, 2, 2, 0, 1, 3, 1/2, 20, 2, 50⟩] 1 2).clusterNodes = 2
    ∧ (getClusterStats [(⟨2, 1, 1, 0, 3, 1, 1, 10, 1, 100⟩ : NodeStats),
          ⟨4, 2, 2, 0, 1, 3, 1/2, 20, 2, 50⟩] 1 2).clusterActiveNodes = 1
    ∧ (getClusterStats [(⟨2, 1, 1, 0, 3, 1, 1, 10, 1, 100⟩ : NodeStats),
          ⟨4, 2, 2, 0, 1, 3, 1/2, 20, 2, 50⟩] 1 2).faultToleranceRate
        = ((1 : Nat) : ℚ) / ((2 : Nat) : ℚ)) :=
  ⟨by decide,
   cluster_stats_spec [⟨2, 1, 1, 0, 3, 1, 1, 10, 1, 100⟩,
     ⟨4, 2, 2, 0, 1, 3, 1/2, 20, 2, 50⟩] (by decide) 1 2⟩

end CrabCache
